import Mathlib

/-!
Verification of the claude-evolve core against its specification.

This file shallowly embeds the Python sources of the claude-evolve
repository (`lib/evolution_csv.py`, `lib/evolve_worker.py`, `lib/ai_cli.py`,
`lib/memory_limit_wrapper.py`) as executable Lean definitions and proves or
refutes the frozen claims about them.

Conventions of the embedding:
* A CSV row is a `List String`; a ledger (the parsed CSV file) is a
  `List (List String)`.  File writes are represented by returning the new
  file contents; operations that do not write return the input unchanged.
* Python string primitives (`str.strip`, `str.split`, `str.startswith`,
  `str.lower`, `int(...)`, `float(...)`, `json.loads`) are modelled by the
  `py*`/`j*` helpers below over `List Char`.  The models are restricted to
  ASCII text and plain decimal literals (no underscore separators, no
  `inf`/`nan`, no unicode digits), which covers the data these functions
  are applied to.
* Python floats are modelled as exact rationals (`ℚ`); the decimal
  literals appearing in the claims are exactly representable.
-/

namespace ClaudeEvolve

/-- Character class of Python `str.strip()` / `str.split()` whitespace:
space, tab, newline, carriage return, vertical tab, form feed. -/
def pyWs (c : Char) : Bool :=
  c = ' ' || c = '\t' || c = '\n' || c = '\r' || c = '\x0b' || c = '\x0c'

/-- Drop leading and trailing characters satisfying `p` (the model of
Python `str.strip(chars)` at the character-list level). -/
def stripCharSet (p : Char → Bool) (cs : List Char) : List Char :=
  ((cs.dropWhile p).reverse.dropWhile p).reverse

/-- Python `s.strip()`. -/
def pystrip (s : String) : String :=
  String.mk (stripCharSet pyWs s.data)

/-- Python `s.strip('"')`: drop leading and trailing double quotes. -/
def stripQuotes (s : String) : String :=
  String.mk (stripCharSet (fun c => c = '"') s.data)

/-- Python `s.startswith(pre)`. -/
def pystartswith (s pre : String) : Bool :=
  pre.data.isPrefixOf s.data

/-- Python `s.lower()` (ASCII). -/
def pylower (s : String) : String :=
  String.mk (s.data.map Char.toLower)

/-- Split a character list at every occurrence of `sep`
(the model of Python `str.split(sep)` for a one-character separator;
like Python, adjacent separators produce empty pieces). -/
def splitOnCh (sep : Char) : List Char → List (List Char)
  | [] => [[]]
  | c :: rest =>
    if c = sep then [] :: splitOnCh sep rest
    else
      match splitOnCh sep rest with
      | [] => [[c]]
      | w :: ws => (c :: w) :: ws

/-- Split at every character satisfying `p` (auxiliary for Python
`str.split()` with no argument, which drops the empty pieces). -/
def splitOnPred (p : Char → Bool) : List Char → List (List Char)
  | [] => [[]]
  | c :: rest =>
    if p c then [] :: splitOnPred p rest
    else
      match splitOnPred p rest with
      | [] => [[c]]
      | w :: ws => (c :: w) :: ws

/-- Python `str.split()` with no argument: split on whitespace runs,
dropping empty pieces. -/
def pysplitWs (cs : List Char) : List (List Char) :=
  (splitOnPred pyWs cs).filter (fun w => !w.isEmpty)

/-- Join character lists with a single separator list
(the model of Python `sep.join(...)`). -/
def joinWith (sep : List Char) : List (List Char) → List Char
  | [] => []
  | [w] => w
  | w :: ws => w ++ sep ++ joinWith sep ws

/-- Numeric value of a decimal digit character. -/
def digitVal (c : Char) : Nat := c.toNat - 48

/-- Value of a list of decimal digit characters read as a base-10 numeral. -/
def digitsVal (cs : List Char) : Nat :=
  cs.foldl (fun a c => a * 10 + digitVal c) 0

/-- The decimal digit character for `d < 10`. -/
def digitChar (d : Nat) : Char :=
  match d with
  | 0 => '0' | 1 => '1' | 2 => '2' | 3 => '3' | 4 => '4'
  | 5 => '5' | 6 => '6' | 7 => '7' | 8 => '8' | 9 => '9'
  | _ => '*'

/-- Fuel-driven digit expansion (the fuel only makes the recursion
structural; `natChars` always supplies enough). -/
def natCharsAux : Nat → Nat → List Char
  | 0, _ => []
  | fuel + 1, n =>
    if n < 10 then [digitChar n]
    else natCharsAux fuel (n / 10) ++ [digitChar (n % 10)]

/-- Decimal digits of a natural number (no leading zeros; `0 ↦ "0"`),
the model of Python `str(n)` / `"%d" % n` for a natural number. -/
def natChars (n : Nat) : List Char := natCharsAux (n + 1) n

/-- Zero-padded decimal rendering, the model of Python `f"{n:0wd}"`
for a natural number (pads with `'0'` to width `w`). -/
def padChars (w n : Nat) : List Char :=
  List.replicate (w - (natChars n).length) '0' ++ natChars n

/-- Model of Python `int(s)` restricted to plain ASCII decimal literals:
surrounding whitespace and a single leading sign are accepted. -/
def pyIntChars (cs : List Char) : Option Int :=
  let t := stripCharSet pyWs cs
  match t with
  | [] => none
  | c :: ds =>
    if c = '-' then
      if !ds.isEmpty && ds.all Char.isDigit then some (-(digitsVal ds : Int)) else none
    else if c = '+' then
      if !ds.isEmpty && ds.all Char.isDigit then some ((digitsVal ds : Int)) else none
    else if (c :: ds).all Char.isDigit then some ((digitsVal (c :: ds) : Int)) else none

/-! ## lib/evolution_csv.py -/

/-- A parsed CSV row. -/
abbrev Row := List String

/-- `EvolutionCSV.is_valid_candidate_row`: the row is non-empty and its
first column holds a non-empty id.  (The source's three guards `not row`,
`len(row) == 0` and the `row[0]` check collapse to the two cases below.) -/
def is_valid_candidate_row (row : Row) : Bool :=
  match row with
  | [] => false
  | c :: _ => !(c == "" || pystrip c == "")

/-- The status-normalization steps of `EvolutionCSV.is_pending_candidate`:
strip, replace embedded `\n`/`\r`/`\t` by spaces, collapse whitespace runs
(`' '.join(status.split())`), and lowercase. -/
def normalize_status (s : String) : String :=
  let cs := stripCharSet pyWs s.data
  let cs := cs.map (fun c => if c = '\n' || c = '\r' || c = '\t' then ' ' else c)
  pylower (String.mk (joinWith [' '] (pysplitWs cs)))

/-- The status checks of `EvolutionCSV.is_pending_candidate` (source lines
128-142), as a function of the already-normalized status. -/
def pending_status_check (status : String) : Bool :=
  if status == "" || status == "pending" then true
  else if pystartswith status "pending " then true
  else if pystartswith status "failed-retry" then true
  else false

/-- `EvolutionCSV.is_pending_candidate`: the unified pending predicate
(the source's early `return False` for invalid rows is the outer `else`). -/
def is_pending_candidate (row : Row) : Bool :=
  if is_valid_candidate_row row then
    if row.length < 5 then true  -- incomplete row is pending
    else pending_status_check (normalize_status (row.getD 4 ""))
  else false

/-- Id cleaning used throughout the source:
`row[0].strip().strip('"')`. -/
def clean_id (s : String) : String :=
  stripQuotes (pystrip s)

/-- Header detection `rows and rows[0] and rows[0][0].lower() == 'id'`. -/
def has_header (rows : List Row) : Bool :=
  match rows with
  | [] => false
  | r :: _ =>
    match r with
    | [] => false
    | c :: _ => pylower c == "id"

/-- `start_idx = 1 if header else 0`. -/
def start_idx (rows : List Row) : Nat :=
  if has_header rows then 1 else 0

/-- `while len(row) < n: row.append('')`. -/
def pad_to (n : Nat) (row : Row) : Row :=
  row ++ List.replicate (n - row.length) ""

/-- The claiming transformation of `get_next_pending_candidate`:
pad the row to five columns, then set the status column to `running`. -/
def claim_row (row : Row) : Row :=
  (pad_to 5 row).set 4 "running"

/-- Reverse scan of `get_next_pending_candidate`: the greatest index
`i` with `lo ≤ i < n` whose row is pending (the source iterates
`range(len(rows) - 1, start_idx - 1, -1)` and stops at the first hit). -/
def find_last_pending (rows : List Row) (lo : Nat) : Nat → Option Nat
  | 0 => none
  | n + 1 =>
    if lo ≤ n && is_pending_candidate (rows.getD n []) then some n
    else find_last_pending rows lo n

/-- `EvolutionCSV.get_next_pending_candidate`: claim the last pending row.
Returns the value returned to the caller together with the resulting file
contents (unchanged when nothing is claimed; the empty-file early return
coincides with the no-pending branch). -/
def get_next_pending_candidate (rows : List Row) :
    Option (String × String) × List Row :=
  match find_last_pending rows (start_idx rows) rows.length with
  | none => (none, rows)
  | some i =>
    let row := rows.getD i []
    (some (clean_id (row.getD 0 ""),
           if 4 < row.length then pystrip (row.getD 4 "") else ""),
     rows.set i (claim_row row))

-- basic sanity checks of the embedding on concrete rows
example : is_pending_candidate ["gen01-001", "", "", "", "running"] = false := by decide
example : is_pending_candidate ["gen01-001", "", "", "", "pending gen08-013"] = true := by decide
example : is_pending_candidate ["gen01-001", "", "", "", " Failed-Retry2\n"] = true := by decide
example : is_pending_candidate ["gen01-001", "", ""] = true := by decide
example : is_pending_candidate ["  ", "", "", "", ""] = false := by decide
example : clean_id " \"gen01-001\" " = "gen01-001" := by decide

/-! ## C1: the pending predicate versus the spec's status rule -/

/-- The spec's description of the pending rule, as a predicate on the
normalized status alone: pending iff the status is empty, equals
`pending`, begins with `pending `, or begins with `failed-retry`. -/
def pending_status_spec (s : String) : Bool :=
  s == "" || s == "pending" || pystartswith s "pending " || pystartswith s "failed-retry"

lemma getD_of_short {α : Type} (row : List α) (d : α) {n : Nat}
    (h : row.length ≤ n) : row.getD n d = d :=
  List.getD_eq_default _ _ h

/-- C1 (corrected): the predicate equals the spec's status rule on every
valid candidate row, and a normalized status of `running` is never
pending. -/
lemma pending_check_eq_spec (s : String) :
    pending_status_check s = pending_status_spec s := by
  unfold pending_status_check pending_status_spec
  cases h1 : (s == "") <;> cases h2 : (s == "pending") <;>
    cases h3 : pystartswith s "pending " <;>
      cases h4 : pystartswith s "failed-retry" <;>
        simp [h1, h2, h3, h4]

theorem pending_predicate_amended :
    (∀ row : Row, is_valid_candidate_row row = true →
      (is_pending_candidate row = true ↔
        pending_status_spec (normalize_status (row.getD 4 "")) = true)) ∧
    (∀ row : Row, normalize_status (row.getD 4 "") = "running" →
      is_pending_candidate row = false) := by
  constructor
  · intro row hv
    unfold is_pending_candidate
    rw [if_pos hv]
    by_cases hlen : row.length < 5
    · rw [if_pos hlen, getD_of_short row "" (by omega : row.length ≤ 4)]
      constructor
      · intro _
        decide
      · intro _
        rfl
    · rw [if_neg hlen, pending_check_eq_spec]
  · intro row h
    by_cases hv : is_valid_candidate_row row
    · unfold is_pending_candidate
      rw [if_pos hv]
      by_cases hlen : row.length < 5
      · exfalso
        rw [getD_of_short row "" (by omega : row.length ≤ 4)] at h
        exact absurd h (by decide)
      · rw [if_neg hlen, h]
        decide
    · unfold is_pending_candidate
      rw [if_neg hv]

/-- C1 witness: a concrete retry row satisfies the amended equivalence and
a concrete running row is rejected. -/
theorem pending_predicate_amended_witness :
    (is_pending_candidate ["gen01-001", "", "", "", "failed-retry2"] = true ↔
      pending_status_spec (normalize_status
        ((["gen01-001", "", "", "", "failed-retry2"] : Row).getD 4 "")) = true) ∧
    is_pending_candidate ["gen01-002", "", "", "", " RUNNING "] = false :=
  ⟨pending_predicate_amended.1 _ (by decide),
   pending_predicate_amended.2 ["gen01-002", "", "", "", " RUNNING "] (by decide)⟩

/-- C1 counterexample: a row with an empty id and an empty status is not
classified as pending by the code, although the claimed status rule calls
it pending. -/
theorem pending_predicate_counterexample :
    is_pending_candidate ["", "gen01-000", "desc", "", ""] = false ∧
    pending_status_spec (normalize_status
      ((["", "gen01-000", "desc", "", ""] : Row).getD 4 "")) = true := by
  decide

/-! ## C2: claiming the last pending row -/

lemma find_last_pending_of_last (rows : List Row) (lo i : Nat) :
    ∀ n, lo ≤ i → i < n →
    is_pending_candidate (rows.getD i []) = true →
    (∀ j, i < j → j < n → is_pending_candidate (rows.getD j []) = false) →
    find_last_pending rows lo n = some i := by
  intro n
  induction n with
  | zero => intro _ h; omega
  | succ m ih =>
    intro hlo hin hp hlast
    by_cases him : i = m
    · subst him
      simp only [find_last_pending]
      rw [decide_eq_true hlo, hp]
      rfl
    · have him' : i < m := by omega
      have hm : is_pending_candidate (rows.getD m []) = false :=
        hlast m him' (by omega)
      simp only [find_last_pending]
      rw [hm, Bool.and_false, if_neg (by decide : ¬ (false = true))]
      exact ih hlo him' hp (fun j hj1 hj2 => hlast j hj1 (by omega))

lemma find_last_pending_of_none (rows : List Row) (lo : Nat) :
    ∀ n, (∀ j, lo ≤ j → j < n → is_pending_candidate (rows.getD j []) = false) →
    find_last_pending rows lo n = none := by
  intro n
  induction n with
  | zero => intro _; rfl
  | succ m ih =>
    intro h
    have hcond : (decide (lo ≤ m) && is_pending_candidate (rows.getD m [])) = false := by
      by_cases hm : lo ≤ m
      · rw [h m hm (by omega), Bool.and_false]
      · rw [decide_eq_false hm, Bool.false_and]
    simp only [find_last_pending]
    rw [hcond, if_neg (by decide : ¬ (false = true))]
    exact ih (fun j hj1 hj2 => h j hj1 (by omega))

lemma claim_row_length (row : Row) : (claim_row row).length = max row.length 5 := by
  simp [claim_row, pad_to]
  omega

lemma claim_row_status (row : Row) : (claim_row row).getD 4 "" = "running" := by
  have hl : 4 < (pad_to 5 row).length := by
    simp [pad_to]
    omega
  rw [claim_row, List.getD_eq_getD_get?, List.get?_set_eq, List.get?_eq_get hl]
  rfl

lemma getD_set_ne (rows : List Row) (i j : Nat) (r : Row) (h : j ≠ i) :
    (rows.set i r).getD j [] = rows.getD j [] := by
  rw [List.getD_eq_getD_get?, List.getD_eq_getD_get?,
    List.get?_set_ne _ _ (fun he => h he.symm)]

lemma getD_set_self (rows : List Row) (i : Nat) (r : Row) (h : i < rows.length) :
    (rows.set i r).getD i [] = r := by
  rw [List.getD_eq_getD_get?, List.get?_set_eq, List.get?_eq_get h]
  rfl

/-- C2: `get_next_pending_candidate` claims exactly the last pending row
(reverse scan from the end of the file): it returns that row's cleaned id
and prior status, rewrites only that row (padded, status `running`), and
leaves every other row unchanged; with no pending row it returns `none`
and the ledger is untouched. -/
theorem claim_next_pending_spec :
    (∀ (rows : List Row) (i : Nat),
      start_idx rows ≤ i → i < rows.length →
      is_pending_candidate (rows.getD i []) = true →
      (∀ j, i < j → j < rows.length → is_pending_candidate (rows.getD j []) = false) →
      get_next_pending_candidate rows =
        (some (clean_id ((rows.getD i []).getD 0 ""),
               if 4 < (rows.getD i []).length then pystrip ((rows.getD i []).getD 4 "") else ""),
         rows.set i (claim_row (rows.getD i []))) ∧
      ((rows.set i (claim_row (rows.getD i []))).getD i []).getD 4 "" = "running" ∧
      (∀ j, j ≠ i → (rows.set i (claim_row (rows.getD i []))).getD j [] = rows.getD j [])) ∧
    (∀ rows : List Row,
      (∀ j, start_idx rows ≤ j → j < rows.length → is_pending_candidate (rows.getD j []) = false) →
      get_next_pending_candidate rows = (none, rows)) := by
  constructor
  · intro rows i hlo hlen hp hlast
    have hfind : find_last_pending rows (start_idx rows) rows.length = some i :=
      find_last_pending_of_last rows (start_idx rows) i rows.length hlo hlen hp hlast
    refine ⟨?_, ?_, ?_⟩
    · unfold get_next_pending_candidate
      rw [hfind]
    · rw [getD_set_self rows i _ hlen, claim_row_status]
    · intro j hj
      exact getD_set_ne rows i j _ hj
  · intro rows h
    have hfind : find_last_pending rows (start_idx rows) rows.length = none :=
      find_last_pending_of_none rows (start_idx rows) rows.length h
    unfold get_next_pending_candidate
    rw [hfind]

/-- C2 witness: on a concrete two-row ledger the second row is claimed. -/
theorem claim_next_pending_spec_witness :
    get_next_pending_candidate
        [["gen01-001", "", "", "", "complete"], ["gen01-002", "", "", "", "pending"]] =
      (some ("gen01-002", "pending"),
       [["gen01-001", "", "", "", "complete"], ["gen01-002", "", "", "", "running"]]) := by
  have h := (claim_next_pending_spec.1
    [["gen01-001", "", "", "", "complete"], ["gen01-002", "", "", "", "pending"]]
    1 (by decide) (by decide) (by decide)
    (fun j hj1 hj2 => by
      simp only [List.length_cons, List.length_nil] at hj2
      omega)).1
  rw [h]
  decide

/-! ## C10: short rows are pending and get padded when claimed -/

lemma getD_replicate_empty (m j : Nat) : (List.replicate m ("" : String)).getD j "" = "" := by
  induction m generalizing j with
  | zero => rfl
  | succ k ih =>
    cases j with
    | zero => rfl
    | succ j' => exact ih j'

/-- C10: a valid row with fewer than five columns is pending; claiming it
(in a one-row headerless ledger) pads it to exactly five columns, keeps
the existing fields, fills the rest with empty strings, and sets the
status column to `running`. -/
theorem short_row_claim_spec :
    ∀ row : Row, is_valid_candidate_row row = true → row.length < 5 →
    pylower (row.getD 0 "") ≠ "id" →
    is_pending_candidate row = true ∧
    get_next_pending_candidate [row] = (some (clean_id (row.getD 0 ""), ""), [claim_row row]) ∧
    (claim_row row).length = 5 ∧
    (claim_row row).getD 4 "" = "running" ∧
    (∀ k, k < row.length → (claim_row row).getD k "" = row.getD k "") ∧
    (∀ k, row.length ≤ k → k < 4 → (claim_row row).getD k "" = "") := by
  intro row hv hlen hid
  have hpend : is_pending_candidate row = true := by
    unfold is_pending_candidate
    rw [if_pos hv, if_pos hlen]
  have hnonempty : ∃ c cs, row = c :: cs := by
    cases row with
    | nil => exact absurd hv (by decide)
    | cons c cs => exact ⟨c, cs, rfl⟩
  obtain ⟨c, cs, hrow⟩ := hnonempty
  have hhd : has_header [row] = false := by
    rw [hrow]
    show (pylower c == "id") = false
    have hc : pylower c ≠ "id" := by
      rw [hrow] at hid
      exact hid
    exact beq_eq_false_iff_ne.mpr hc
  have hstart : start_idx [row] = 0 := by
    unfold start_idx
    rw [hhd]
    rfl
  refine ⟨hpend, ?_, ?_, claim_row_status row, ?_, ?_⟩
  · have hget : ([row] : List Row).getD 0 [] = row := rfl
    have hfind : find_last_pending [row] (start_idx [row]) ([row] : List Row).length = some 0 := by
      rw [hstart]
      show find_last_pending [row] 0 1 = some 0
      simp only [find_last_pending]
      rw [hget, hpend, Bool.and_true]
      rfl
    unfold get_next_pending_candidate
    rw [hfind]
    show (some (clean_id (row.getD 0 ""),
        if 4 < row.length then pystrip (row.getD 4 "") else ""),
      [claim_row row]) = (some (clean_id (row.getD 0 ""), ""), [claim_row row])
    rw [if_neg (by omega : ¬ 4 < row.length)]
  · rw [claim_row_length]
    omega
  · intro k hk
    have hk4 : k ≠ 4 := by omega
    rw [claim_row, List.getD_eq_getD_get?, List.get?_set_ne _ _ (fun he => hk4 he.symm),
      pad_to, List.get?_append hk, ← List.getD_eq_getD_get?]
  · intro k hk1 hk2
    have hk4 : k ≠ 4 := by omega
    rw [claim_row, List.getD_eq_getD_get?, List.get?_set_ne _ _ (fun he => hk4 he.symm),
      pad_to, List.get?_append_right hk1, ← List.getD_eq_getD_get?,
      getD_replicate_empty]

/-- C10 witness: a concrete three-column row is pending and is claimed
with padding. -/
theorem short_row_claim_spec_witness :
    is_pending_candidate ["gen02-004", "gen01-001", "desc"] = true ∧
    get_next_pending_candidate [["gen02-004", "gen01-001", "desc"]] =
      (some (clean_id ((["gen02-004", "gen01-001", "desc"] : Row).getD 0 ""), ""),
       [claim_row ["gen02-004", "gen01-001", "desc"]]) ∧
    (claim_row ["gen02-004", "gen01-001", "desc"]).getD 2 "" =
      (["gen02-004", "gen01-001", "desc"] : Row).getD 2 "" ∧
    (claim_row ["gen02-004", "gen01-001", "desc"]).getD 3 "" = "" := by
  have h := short_row_claim_spec ["gen02-004", "gen01-001", "desc"]
    (by decide) (by decide) (by decide)
  exact ⟨h.1, h.2.1, h.2.2.2.2.1 2 (by decide), h.2.2.2.2.2 3 (by decide) (by decide)⟩

/-! ## C5: reset_stuck_candidates -/

/-- The `valid_statuses` set of `EvolutionCSV.reset_stuck_candidates`
(source lines 451-453). -/
def code_valid_statuses : List String :=
  ["", "pending", "complete", "failed", "failed-ai-retry",
   "failed-retry1", "failed-retry2", "failed-retry3", "skipped",
   "failed-parent-missing", "running"]

/-- The per-row action of `reset_stuck_candidates` (source lines 458-480;
the duplicate-id warning has no effect on the data). -/
def reset_row (row : Row) : Row :=
  if 4 < row.length then
    if pystrip (row.getD 4 "") == "running" then row.set 4 "pending"
    else if !(code_valid_statuses.contains (pystrip (row.getD 4 ""))) then
      row.set 4 "pending"
    else row
  else row

/-- `EvolutionCSV.reset_stuck_candidates`, returning the resulting file
contents (when nothing is reset the written content equals the input). -/
def reset_stuck_candidates (rows : List Row) : List Row :=
  rows.take (start_idx rows) ++ (rows.drop (start_idx rows)).map reset_row

/-- `failed-retryN` with `N ≥ 1`, as the claim's recognized-status list
reads it. -/
def is_failed_retry_n (s : String) : Bool :=
  pystartswith s "failed-retry" &&
    (!(s.data.drop 12).isEmpty && (s.data.drop 12).all Char.isDigit &&
      1 ≤ digitsVal (s.data.drop 12))

/-- The claim's recognized-status set (data-model statuses of the spec). -/
def claim_recognized (s : String) : Bool :=
  (["pending", "running", "complete", "failed", "failed-ai-retry",
    "failed-parent-missing", "failed-validation", "skipped", ""] : List String).contains s
  || is_failed_retry_n s

/-- C5 counterexample: `failed-validation` is recognized by the claim's
status list and differs from `running`, yet `reset_stuck_candidates`
rewrites it to `pending`. -/
theorem reset_stuck_counterexample :
    claim_recognized "failed-validation" = true ∧
    "failed-validation" ≠ "running" ∧
    reset_stuck_candidates [["gen03-001", "", "", "0.5", "failed-validation"]] =
      [["gen03-001", "", "", "0.5", "pending"]] ∧
    (["gen03-001", "", "", "0.5", "pending"] : Row) ≠
      ["gen03-001", "", "", "0.5", "failed-validation"] := by
  decide

lemma start_idx_le_length (rows : List Row) : start_idx rows ≤ rows.length := by
  unfold start_idx
  by_cases hh : has_header rows
  · rw [if_pos hh]
    cases rows with
    | nil => exact absurd hh (by decide)
    | cons r rest => simp
  · rw [if_neg hh]
    omega

lemma getD_set_self' {α : Type} (l : List α) (i : Nat) (a d : α) (h : i < l.length) :
    (l.set i a).getD i d = a := by
  rw [List.getD_eq_getD_get?, List.get?_set_eq, List.get?_eq_get h]
  rfl

/-- C5 (corrected): `reset_stuck_candidates` rewrites to `pending` exactly
the data rows with at least five columns whose stripped status is
`running` or is not in the code's `valid_statuses` set; shorter rows and
rows with a listed status other than `running` are unchanged, and
afterwards no row carries status `running`. -/
theorem reset_stuck_amended :
    (∀ rows : List Row,
      (reset_stuck_candidates rows).length = rows.length ∧
      (∀ i, i < start_idx rows →
        (reset_stuck_candidates rows).getD i [] = rows.getD i []) ∧
      (∀ i, start_idx rows ≤ i → i < rows.length →
        (reset_stuck_candidates rows).getD i [] = reset_row (rows.getD i []))) ∧
    (∀ row : Row, row.length ≤ 4 → reset_row row = row) ∧
    (∀ row : Row, 4 < row.length → pystrip (row.getD 4 "") = "running" →
      reset_row row = row.set 4 "pending") ∧
    (∀ row : Row, 4 < row.length →
      code_valid_statuses.contains (pystrip (row.getD 4 "")) = false →
      reset_row row = row.set 4 "pending") ∧
    (∀ row : Row, 4 < row.length → pystrip (row.getD 4 "") ≠ "running" →
      code_valid_statuses.contains (pystrip (row.getD 4 "")) = true →
      reset_row row = row) ∧
    (∀ row : Row, pystrip ((reset_row row).getD 4 "") ≠ "running") := by
  have hshort : ∀ row : Row, row.length ≤ 4 → reset_row row = row := by
    intro row hl
    unfold reset_row
    rw [if_neg (by omega : ¬ 4 < row.length)]
  have hrun : ∀ row : Row, 4 < row.length → pystrip (row.getD 4 "") = "running" →
      reset_row row = row.set 4 "pending" := by
    intro row hl hs
    unfold reset_row
    rw [if_pos hl, hs]
    rfl
  have hunk : ∀ row : Row, 4 < row.length →
      code_valid_statuses.contains (pystrip (row.getD 4 "")) = false →
      reset_row row = row.set 4 "pending" := by
    intro row hl hc
    have hne : pystrip (row.getD 4 "") ≠ "running" := by
      intro he
      rw [he] at hc
      exact absurd hc (by decide)
    unfold reset_row
    rw [if_pos hl, beq_eq_false_iff_ne.mpr hne, hc]
    rfl
  have hkeep : ∀ row : Row, 4 < row.length → pystrip (row.getD 4 "") ≠ "running" →
      code_valid_statuses.contains (pystrip (row.getD 4 "")) = true →
      reset_row row = row := by
    intro row hl hne hc
    unfold reset_row
    rw [if_pos hl, beq_eq_false_iff_ne.mpr hne, hc]
    rfl
  refine ⟨?_, hshort, hrun, hunk, hkeep, ?_⟩
  · intro rows
    have hsle : start_idx rows ≤ rows.length := start_idx_le_length rows
    have htl : (rows.take (start_idx rows)).length = start_idx rows := by
      rw [List.length_take]
      omega
    refine ⟨?_, ?_, ?_⟩
    · unfold reset_stuck_candidates
      rw [List.length_append, List.length_map, htl, List.length_drop]
      omega
    · intro i hi
      unfold reset_stuck_candidates
      rw [List.getD_eq_getD_get?, List.get?_append (by omega : i < (rows.take (start_idx rows)).length),
        List.get?_take (by omega : i < start_idx rows), ← List.getD_eq_getD_get?]
    · intro i h1 h2
      unfold reset_stuck_candidates
      rw [List.getD_eq_getD_get?, List.get?_append_right (by omega : (rows.take (start_idx rows)).length ≤ i),
        List.get?_map, htl, List.get?_drop]
      have harith : start_idx rows + (i - start_idx rows) = i := by omega
      rw [harith, List.get?_eq_get h2]
      show reset_row (rows.get ⟨i, h2⟩) = reset_row (rows.getD i [])
      rw [List.getD_eq_getD_get?, List.get?_eq_get h2]
      rfl
  · intro row
    by_cases hl : 4 < row.length
    · by_cases hs : pystrip (row.getD 4 "") = "running"
      · rw [hrun row hl hs, getD_set_self' row 4 "pending" "" (by omega)]
        decide
      · by_cases hc : code_valid_statuses.contains (pystrip (row.getD 4 "")) = true
        · rw [hkeep row hl hs hc]
          exact hs
        · rw [hunk row hl (Bool.not_eq_true _ ▸ hc : _ = false),
            getD_set_self' row 4 "pending" "" (by omega)]
          decide
    · rw [hshort row (by omega)]
      rw [getD_of_short row "" (by omega : row.length ≤ 4)]
      decide

/-- C5 witness: concrete rows exercising the reset, keep and
no-running-afterwards parts of the amended statement. -/
theorem reset_stuck_amended_witness :
    (reset_stuck_candidates
        [["id", "basedOnId", "description", "performance", "status"],
         ["gen01-001", "", "", "", "running"]]).getD 1 [] =
      reset_row ([["id", "basedOnId", "description", "performance", "status"],
         ["gen01-001", "", "", "", "running"]].getD 1 []) ∧
    reset_row ["gen01-001", "", "", "", "running"] =
      (["gen01-001", "", "", "", "running"] : Row).set 4 "pending" ∧
    reset_row ["gen01-002", "", "", "", "failed-retry9"] =
      (["gen01-002", "", "", "", "failed-retry9"] : Row).set 4 "pending" ∧
    reset_row ["gen01-003", "", "", "", "complete"] = ["gen01-003", "", "", "", "complete"] ∧
    pystrip ((reset_row ["gen01-004", "", "", "", " running "]).getD 4 "") ≠ "running" := by
  refine ⟨(reset_stuck_amended.1 _).2.2 1 (by decide) (by decide), ?_, ?_, ?_, ?_⟩
  · exact reset_stuck_amended.2.2.1 _ (by decide) (by decide)
  · exact reset_stuck_amended.2.2.2.1 _ (by decide) (by decide)
  · exact reset_stuck_amended.2.2.2.2.1 _ (by decide) (by decide) (by decide)
  · exact reset_stuck_amended.2.2.2.2.2 _

/-! ## C8: remove_duplicate_candidates -/

/-- The scanning loop of `EvolutionCSV.remove_duplicate_candidates`
(source lines 530-550): walk the data rows keeping a `seen` set of cleaned
ids; a non-empty row whose cleaned id was already seen is removed
(`rows_to_remove`), empty rows are kept and not tracked. -/
def dedup_rows (seen : List String) : List Row → List Row
  | [] => []
  | r :: rest =>
    if r.isEmpty then r :: dedup_rows seen rest
    else
      if seen.contains (clean_id (r.getD 0 "")) then dedup_rows seen rest
      else r :: dedup_rows (clean_id (r.getD 0 "") :: seen) rest

/-- `EvolutionCSV.remove_duplicate_candidates`, returning the resulting
file contents (unchanged when there is no duplicate). -/
def remove_duplicate_candidates (rows : List Row) : List Row :=
  rows.take (start_idx rows) ++ dedup_rows [] (rows.drop (start_idx rows))

/-- Row matcher used to state C8: a non-empty row whose cleaned id is
`id`. -/
def row_id_matches (id : String) (r : Row) : Bool :=
  !r.isEmpty && (clean_id (r.getD 0 "") == id)

lemma dedup_rows_filter (id : String) :
    ∀ (data : List Row) (seen : List String),
      (dedup_rows seen data).filter (row_id_matches id) =
        if seen.contains id then []
        else ((data.filter (row_id_matches id)).take 1) := by
  intro data
  induction data with
  | nil =>
    intro seen
    by_cases hs : seen.contains id = true
    · rw [dedup_rows, List.filter_nil, if_pos hs]
    · rw [dedup_rows, List.filter_nil, if_neg hs]
      rfl
  | cons r rest ih =>
    intro seen
    by_cases hemp : r.isEmpty = true
    · have hp : row_id_matches id r = false := by
        unfold row_id_matches
        rw [hemp]
        rfl
      rw [dedup_rows, if_pos hemp, List.filter_cons, hp, List.filter_cons, hp]
      simp only [Bool.false_eq_true, if_false]
      exact ih seen
    · have hp : row_id_matches id r = (clean_id (r.getD 0 "") == id) := by
        unfold row_id_matches
        rw [Bool.eq_false_iff.mpr hemp]
        rfl
      rw [dedup_rows, if_neg hemp]
      by_cases hseen : seen.contains (clean_id (r.getD 0 "")) = true
      · rw [if_pos hseen, ih seen]
        cases hbeq : (clean_id (r.getD 0 "") == id) with
        | true =>
          have hid : seen.contains id = true := by
            rw [← eq_of_beq hbeq]
            exact hseen
          rw [if_pos hid, if_pos hid]
        | false =>
          rw [List.filter_cons, hp, hbeq]
          simp only [Bool.false_eq_true, if_false]
      · rw [if_neg hseen, List.filter_cons, hp, List.filter_cons, hp]
        cases hbeq : (clean_id (r.getD 0 "") == id) with
        | true =>
          have hid : (clean_id (r.getD 0 "") :: seen).contains id = true := by
            rw [List.contains_cons, eq_of_beq hbeq]
            simp
          have hid2 : seen.contains id = false := by
            rw [← eq_of_beq hbeq]
            exact Bool.eq_false_iff.mpr hseen
          rw [ih (clean_id (r.getD 0 "") :: seen), if_pos hid, hid2]
          rfl
        | false =>
          have hne : id ≠ clean_id (r.getD 0 "") :=
            fun he => (beq_eq_false_iff_ne.mp hbeq) he.symm
          have hid : (clean_id (r.getD 0 "") :: seen).contains id = seen.contains id := by
            rw [List.contains_cons, beq_eq_false_iff_ne.mpr hne, Bool.false_or]
          simp only [Bool.false_eq_true, if_false]
          rw [ih (clean_id (r.getD 0 "") :: seen), hid]

lemma dedup_rows_idem :
    ∀ (data : List Row) (seen : List String),
      dedup_rows seen (dedup_rows seen data) = dedup_rows seen data := by
  intro data
  induction data with
  | nil => intro seen; rfl
  | cons r rest ih =>
    intro seen
    by_cases hemp : r.isEmpty = true
    · rw [dedup_rows, if_pos hemp]
      conv_lhs => rw [dedup_rows, if_pos hemp]
      rw [ih seen]
    · rw [dedup_rows, if_neg hemp]
      by_cases hseen : seen.contains (clean_id (r.getD 0 "")) = true
      · rw [if_pos hseen]
        exact ih seen
      · rw [if_neg hseen]
        conv_lhs => rw [dedup_rows, if_neg hemp, if_neg hseen]
        rw [ih (clean_id (r.getD 0 "") :: seen)]

lemma dedup_rows_sublist :
    ∀ (data : List Row) (seen : List String), (dedup_rows seen data).Sublist data := by
  intro data
  induction data with
  | nil => intro seen; exact List.Sublist.refl []
  | cons r rest ih =>
    intro seen
    by_cases hemp : r.isEmpty = true
    · rw [dedup_rows, if_pos hemp]
      exact List.Sublist.cons₂ r (ih seen)
    · rw [dedup_rows, if_neg hemp]
      by_cases hseen : seen.contains (clean_id (r.getD 0 "")) = true
      · rw [if_pos hseen]
        exact List.Sublist.cons r (ih seen)
      · rw [if_neg hseen]
        exact List.Sublist.cons₂ r (ih (clean_id (r.getD 0 "") :: seen))

lemma remove_dups_head? (rows : List Row) :
    (remove_duplicate_candidates rows).head? = rows.head? := by
  unfold remove_duplicate_candidates start_idx
  by_cases hh : has_header rows
  · rw [if_pos hh]
    cases rows with
    | nil => exact absurd hh (by decide)
    | cons r rest => rfl
  · rw [if_neg hh]
    cases rows with
    | nil => rfl
    | cons r rest =>
      show (dedup_rows [] (r :: rest)).head? = some r
      rw [dedup_rows]
      by_cases hemp : r.isEmpty = true
      · rw [if_pos hemp]
        rfl
      · rw [if_neg hemp,
          if_neg (show ¬ (([] : List String).contains (clean_id (r.getD 0 "")) = true) from
            fun hc => Bool.false_ne_true hc)]
        rfl

lemma has_header_eq_of_head? (rows rows' : List Row)
    (h : rows.head? = rows'.head?) : has_header rows = has_header rows' := by
  cases rows with
  | nil =>
    cases rows' with
    | nil => rfl
    | cons r' rest' => exact absurd h (by simp)
  | cons r rest =>
    cases rows' with
    | nil => exact absurd h (by simp)
    | cons r' rest' =>
      have he : r = r' := by simpa using h
      subst he
      rfl

lemma start_idx_remove_dups (rows : List Row) :
    start_idx (remove_duplicate_candidates rows) = start_idx rows := by
  unfold start_idx
  rw [has_header_eq_of_head? _ _ (remove_dups_head? rows)]

lemma drop_len_append {α : Type} (l₁ l₂ : List α) (n : Nat) (h : l₁.length = n) :
    (l₁ ++ l₂).drop n = l₂ := by
  subst h
  exact List.drop_left _ _

lemma take_len_append {α : Type} (l₁ l₂ : List α) (n : Nat) (h : l₁.length = n) :
    (l₁ ++ l₂).take n = l₁ := by
  subst h
  exact List.take_left _ _

/-- C8: `remove_duplicate_candidates` keeps, for every id, exactly the
first data row carrying it (later occurrences are removed), preserves the
header, only removes rows (sublist), and is idempotent. -/
theorem remove_duplicates_spec :
    ∀ (rows : List Row) (id : String),
      remove_duplicate_candidates (remove_duplicate_candidates rows) =
        remove_duplicate_candidates rows ∧
      ((remove_duplicate_candidates rows).drop (start_idx rows)).filter (row_id_matches id) =
        ((rows.drop (start_idx rows)).filter (row_id_matches id)).take 1 ∧
      (remove_duplicate_candidates rows).take (start_idx rows) = rows.take (start_idx rows) ∧
      (remove_duplicate_candidates rows).Sublist rows := by
  intro rows id
  have hsle : start_idx rows ≤ rows.length := start_idx_le_length rows
  have htl : (rows.take (start_idx rows)).length = start_idx rows := by
    rw [List.length_take]
    omega
  have hdrop : (remove_duplicate_candidates rows).drop (start_idx rows) =
      dedup_rows [] (rows.drop (start_idx rows)) := by
    show (rows.take (start_idx rows) ++ dedup_rows [] (rows.drop (start_idx rows))).drop
        (start_idx rows) = dedup_rows [] (rows.drop (start_idx rows))
    exact drop_len_append _ _ _ htl
  have htake : (remove_duplicate_candidates rows).take (start_idx rows) =
      rows.take (start_idx rows) := by
    show (rows.take (start_idx rows) ++ dedup_rows [] (rows.drop (start_idx rows))).take
        (start_idx rows) = rows.take (start_idx rows)
    exact take_len_append _ _ _ htl
  refine ⟨?_, ?_, htake, ?_⟩
  · have step : remove_duplicate_candidates (remove_duplicate_candidates rows) =
        (remove_duplicate_candidates rows).take (start_idx (remove_duplicate_candidates rows)) ++
          dedup_rows [] ((remove_duplicate_candidates rows).drop
            (start_idx (remove_duplicate_candidates rows))) := rfl
    rw [step, start_idx_remove_dups rows, hdrop, htake, dedup_rows_idem]
    rfl
  · rw [hdrop, dedup_rows_filter id (rows.drop (start_idx rows)) []]
    rfl
  · conv_rhs => rw [← List.take_append_drop (start_idx rows) rows]
    show (rows.take (start_idx rows) ++ dedup_rows [] (rows.drop (start_idx rows))).Sublist
      (rows.take (start_idx rows) ++ rows.drop (start_idx rows))
    exact List.Sublist.append (List.Sublist.refl _) (dedup_rows_sublist _ [])

/-! ## C9: update operations on a missing id perform no write -/

/-- The row-matching test shared by the three update operations:
`is_valid_candidate_row(row) and row[0].strip().strip('"') ==
candidate_id.strip().strip('"')`. -/
def row_hits (cid : String) (r : Row) : Bool :=
  is_valid_candidate_row r && (clean_id (r.getD 0 "") == clean_id cid)

/-- `EvolutionCSV.update_candidate_status`.  The result is the returned
boolean together with the file contents after the call (`_write_csv` runs
only when a row matched). -/
def update_candidate_status (rows : List Row) (cid new_status : String) :
    Bool × List Row :=
  if rows.isEmpty then (false, rows)
  else if (rows.drop (start_idx rows)).any (row_hits cid) then
    (true, rows.take (start_idx rows) ++
      (rows.drop (start_idx rows)).map
        (fun r => if row_hits cid r then (pad_to 5 r).set 4 new_status else r))
  else (false, rows)

/-- `EvolutionCSV.update_candidate_performance` (performance is column
index 3; rows are padded to four columns). -/
def update_candidate_performance (rows : List Row) (cid performance : String) :
    Bool × List Row :=
  if rows.isEmpty then (false, rows)
  else if (rows.drop (start_idx rows)).any (row_hits cid) then
    (true, rows.take (start_idx rows) ++
      (rows.drop (start_idx rows)).map
        (fun r => if row_hits cid r then (pad_to 4 r).set 3 performance else r))
  else (false, rows)

/-- The headerless `field_map` of `EvolutionCSV.update_candidate_field`
(source lines 303-312), looked up on the lowercased field name. -/
def field_position (field : String) : Option Nat :=
  if pylower field == "id" then some 0
  else if pylower field == "basedonid" then some 1
  else if pylower field == "description" then some 2
  else if pylower field == "performance" then some 3
  else if pylower field == "status" then some 4
  else if pylower field == "idea-llm" then some 5
  else if pylower field == "run-llm" then some 6
  else none

/-- The update loop of `EvolutionCSV.update_candidate_field` over the data
region starting at `s`, targeting column `fi` (rows are padded to
`fi + 1` columns). -/
def apply_field_update (cid value : String) (fi s : Nat) (rows : List Row) : List Row :=
  rows.take s ++ (rows.drop s).map
    (fun r => if row_hits cid r then (pad_to (fi + 1) r).set fi value else r)

/-- `EvolutionCSV.update_candidate_field`.  With a header, the field's
column is looked up case-insensitively; a missing field is appended to
the header and every data row is padded (in memory).  Without a header
only the fixed `field_map` positions can be updated.  `_write_csv` runs
only when a candidate row matched, so on a miss the file keeps its
original contents even in the column-extension branch. -/
def update_candidate_field (rows : List Row) (cid field value : String) :
    Bool × List Row :=
  if rows.isEmpty then (false, rows)
  else if has_header rows then
    match (rows.headD []).findIdx? (fun col => pylower col == pylower field) with
    | some fi =>
      if (rows.drop 1).any (row_hits cid) then
        (true, apply_field_update cid value fi 1 rows)
      else (false, rows)
    | none =>
      -- new column at index `len(header)`; data rows are padded to it
      if ((rows.drop 1).map (pad_to ((rows.headD []).length + 1))).any (row_hits cid) then
        (true, apply_field_update cid value (rows.headD []).length 1
          (((rows.headD []) ++ [field]) ::
            (rows.drop 1).map (pad_to ((rows.headD []).length + 1))))
      else (false, rows)
  else
    match field_position field with
    | none => (false, rows)
    | some fi =>
      if rows.any (row_hits cid) then
        (true, apply_field_update cid value fi 0 rows)
      else (false, rows)

lemma pad_to_getD0 (k : Nat) (hk : 1 ≤ k) (r : Row) :
    (pad_to k r).getD 0 "" = r.getD 0 "" := by
  cases r with
  | nil =>
    show (List.replicate (k - 0) "").getD 0 "" = ""
    exact getD_replicate_empty _ _
  | cons c cs => rfl

lemma row_hits_pad (cid : String) (k : Nat) (hk : 1 ≤ k) (r : Row)
    (h : clean_id (r.getD 0 "") ≠ clean_id cid) :
    row_hits cid (pad_to k r) = false := by
  unfold row_hits
  rw [pad_to_getD0 k hk r, beq_eq_false_iff_ne.mpr h, Bool.and_false]

/-- C9: when no row's cleaned id equals the cleaned requested id, each of
the three update operations returns `False` and leaves the file contents
exactly as they were. -/
theorem update_miss_no_write :
    ∀ (rows : List Row) (cid st pf fld v : String),
      (∀ r ∈ rows, clean_id (r.getD 0 "") ≠ clean_id cid) →
      update_candidate_status rows cid st = (false, rows) ∧
      update_candidate_performance rows cid pf = (false, rows) ∧
      update_candidate_field rows cid fld v = (false, rows) := by
  intro rows cid st pf fld v h
  have hhits : ∀ r ∈ rows, row_hits cid r = false := by
    intro r hr
    unfold row_hits
    rw [beq_eq_false_iff_ne.mpr (h r hr), Bool.and_false]
  have hany : ∀ l : List Row, (∀ r ∈ l, r ∈ rows) → l.any (row_hits cid) = false := by
    intro l hl
    rw [List.any_eq_false]
    intro r hr
    rw [hhits r (hl r hr)]
    exact Bool.false_ne_true
  have hdropany : (rows.drop (start_idx rows)).any (row_hits cid) = false :=
    hany _ (fun r hr => List.mem_of_mem_drop hr)
  have hdrop1any : (rows.drop 1).any (row_hits cid) = false :=
    hany _ (fun r hr => List.mem_of_mem_drop hr)
  refine ⟨?_, ?_, ?_⟩
  · unfold update_candidate_status
    by_cases hE : rows.isEmpty = true
    · rw [if_pos hE]
    · rw [if_neg hE, if_neg (by rw [hdropany]; exact Bool.false_ne_true)]
  · unfold update_candidate_performance
    by_cases hE : rows.isEmpty = true
    · rw [if_pos hE]
    · rw [if_neg hE, if_neg (by rw [hdropany]; exact Bool.false_ne_true)]
  · unfold update_candidate_field
    by_cases hE : rows.isEmpty = true
    · rw [if_pos hE]
    · rw [if_neg hE]
      by_cases hh : has_header rows = true
      · rw [if_pos hh]
        have hmapany :
            ((rows.drop 1).map (pad_to ((rows.headD []).length + 1))).any (row_hits cid) = false := by
          rw [List.any_eq_false]
          intro r' hr'
          rw [List.mem_map] at hr'
          obtain ⟨r, hr, hre⟩ := hr'
          rw [← hre,
            row_hits_pad cid _ (by omega) r (h r (List.mem_of_mem_drop hr))]
          exact Bool.false_ne_true
        cases hf : (rows.headD []).findIdx? (fun col => pylower col == pylower fld) with
        | some fi =>
          show (if (rows.drop 1).any (row_hits cid) = true
              then (true, apply_field_update cid v fi 1 rows)
              else (false, rows)) = (false, rows)
          rw [if_neg (by rw [hdrop1any]; exact Bool.false_ne_true)]
        | none =>
          show (if ((rows.drop 1).map (pad_to ((rows.headD []).length + 1))).any (row_hits cid) = true
              then (true, apply_field_update cid v (rows.headD []).length 1
                (((rows.headD []) ++ [fld]) ::
                  (rows.drop 1).map (pad_to ((rows.headD []).length + 1))))
              else (false, rows)) = (false, rows)
          rw [if_neg (by rw [hmapany]; exact Bool.false_ne_true)]
      · rw [if_neg hh]
        cases hfp : field_position fld with
        | none => rfl
        | some fi =>
          show (if rows.any (row_hits cid) = true
              then (true, apply_field_update cid v fi 0 rows)
              else (false, rows)) = (false, rows)
          rw [if_neg (by rw [hany rows (fun r hr => hr)]; exact Bool.false_ne_true)]

/-- C9 witness: with a concrete ledger and an id that appears nowhere,
all three updates return `False` and the file is unchanged. -/
theorem update_miss_no_write_witness :
    update_candidate_status
        [["id", "basedOnId", "description", "performance", "status"],
         ["gen01-001", "", "x", "", "pending"]] "zzz" "complete" =
      (false, [["id", "basedOnId", "description", "performance", "status"],
               ["gen01-001", "", "x", "", "pending"]]) ∧
    update_candidate_performance
        [["id", "basedOnId", "description", "performance", "status"],
         ["gen01-001", "", "x", "", "pending"]] "zzz" "0.5" =
      (false, [["id", "basedOnId", "description", "performance", "status"],
               ["gen01-001", "", "x", "", "pending"]]) ∧
    update_candidate_field
        [["id", "basedOnId", "description", "performance", "status"],
         ["gen01-001", "", "x", "", "pending"]] "zzz" "notes" "v" =
      (false, [["id", "basedOnId", "description", "performance", "status"],
               ["gen01-001", "", "x", "", "pending"]]) :=
  update_miss_no_write
    [["id", "basedOnId", "description", "performance", "status"],
     ["gen01-001", "", "x", "", "pending"]] "zzz" "complete" "0.5" "notes" "v"
    (by decide)

/-! ## lib/ai_cli.py and the worker's exit codes (C3) -/

/-- The exception classes of `lib/ai_cli.py`.  `TimeoutError`,
`RateLimitError` and `APIExhaustedError` are all subclasses of `AIError`;
the base class carries a message. -/
inductive AIException : Type
  | timeoutE
  | rateLimitE
  | apiExhaustedE
  | genericE (msg : String)
deriving DecidableEq

/-- Exit-code classification of `call_ai_model` (source lines 255-263):
124 → timeout, 2 → rate limited, 3 → API quota exhausted, any other
non-zero → generic `AIError`; `subprocess` failures are likewise wrapped
into a generic `AIError`, so every raised exception is an `AIError`. -/
def classify_ai_exit (exit_code : Nat) (output model : String) :
    Except AIException (String × String) :=
  if exit_code = 124 then .error .timeoutE
  else if exit_code = 2 then .error .rateLimitE
  else if exit_code = 3 then .error .apiExhaustedE
  else if exit_code ≠ 0 then .error (.genericE "AI call failed")
  else .ok (output, model)

/-- Inner loop of one backoff round (source lines 317-329): try each
model of the shuffled pool in turn; `except AIError` catches every
failure — `APIExhaustedError` included — and moves on to the next
model. -/
def try_round (call : String → Except AIException (String × String)) :
    List String → Option (String × String)
  | [] => none
  | m :: ms =>
    match call m with
    | .ok r => some r
    | .error _ => try_round call ms

/-- The round loop of `call_ai_with_backoff` (source lines 310-340);
`shuffle r` is the `random.shuffle` permutation used in round `r` and
`call r m` the outcome of `call_ai_model` for model `m` in round `r`
(the sleeps between rounds do not affect the returned value).  When all
rounds fail the function raises a generic `AIError`. -/
def backoff_rounds (shuffle : Nat → List String → List String)
    (call : Nat → String → Except AIException (String × String))
    (models : List String) : Nat → Nat → Except AIException (String × String)
  | _, 0 => .error (.genericE "All rounds exhausted")
  | round, remaining + 1 =>
    match try_round (call round) (shuffle round models) with
    | some r => .ok r
    | none => backoff_rounds shuffle call models (round + 1) remaining

/-- `call_ai_with_backoff` (source lines 271-340). -/
def call_ai_with_backoff (shuffle : Nat → List String → List String)
    (call : Nat → String → Except AIException (String × String))
    (models : List String) (maxRounds : Nat) :
    Except AIException (String × String) :=
  if models.isEmpty then .error (.genericE "No models configured")
  else backoff_rounds shuffle call models 0 maxRounds

/-- `Worker._call_ai_with_backoff` catches `AIError` and merely reports
failure (source lines 182-184): any exception from the gateway — quota
exhaustion included — becomes `success = False`. -/
def worker_ai_failure (res : Except AIException (String × String)) : Bool :=
  match res with
  | .ok _ => false
  | .error _ => true

/-- `Worker.process_candidate` returns 77 when the AI edit failed
(source lines 463-466). -/
def ai_failure_exit_code : Nat := 77

/-- `Worker.run`'s dispatch on the per-candidate exit code (source lines
590-599): only 2 and 3 abort the worker loop; 77 and 78 update the
ledger row and continue. -/
def run_dispatch (exit_code : Nat) : Option Nat :=
  if exit_code = 2 then some 2
  else if exit_code = 3 then some 3
  else none

lemma backoff_rounds_error_generic (shuffle : Nat → List String → List String)
    (call : Nat → String → Except AIException (String × String))
    (models : List String) :
    ∀ (remaining round : Nat) (e : AIException),
      backoff_rounds shuffle call models round remaining = .error e →
      ∃ msg, e = .genericE msg := by
  intro remaining
  induction remaining with
  | zero =>
    intro round e h
    rw [backoff_rounds] at h
    exact ⟨"All rounds exhausted", (Except.error.injEq _ _).mp h.symm ▸ rfl⟩
  | succ k ih =>
    intro round e h
    rw [backoff_rounds] at h
    cases htry : try_round (call round) (shuffle round models) with
    | some r =>
      rw [htry] at h
      exact absurd h (by simp)
    | none =>
      rw [htry] at h
      exact ih (round + 1) e h

/-- C3 (code bug): the backoff loop can only fail with a generic
`AIError` — a quota-exhaustion report from every model is caught round
after round (`APIExhaustedError` is an `AIError`) and surfaces as the
generic all-rounds-exhausted error; the worker turns that into exit code
77 (`failed-ai-retry`) and its dispatch continues the loop instead of
exiting 3. -/
theorem quota_exhaustion_swallowed :
    (∀ (shuffle : Nat → List String → List String)
       (call : Nat → String → Except AIException (String × String))
       (models : List String) (maxRounds : Nat) (e : AIException),
       call_ai_with_backoff shuffle call models maxRounds = .error e →
       ∃ msg, e = .genericE msg) ∧
    call_ai_with_backoff (fun _ ms => ms)
        (fun _r _m => classify_ai_exit 3 "" "model-a") ["model-a"] 10 =
      .error (.genericE "All rounds exhausted") ∧
    worker_ai_failure (call_ai_with_backoff (fun _ ms => ms)
        (fun _r _m => classify_ai_exit 3 "" "model-a") ["model-a"] 10) = true ∧
    run_dispatch ai_failure_exit_code = none ∧
    run_dispatch ai_failure_exit_code ≠ some 3 := by
  refine ⟨?_, rfl, rfl, by decide, by decide⟩
  intro shuffle call models maxRounds e h
  unfold call_ai_with_backoff at h
  by_cases hm : models.isEmpty = true
  · rw [if_pos hm] at h
    exact ⟨"No models configured", ((Except.error.injEq _ _).mp h).symm⟩
  · rw [if_neg hm] at h
    exact backoff_rounds_error_generic shuffle call models maxRounds 0 e h

/-- C3 witness: the generic-error-only property applied to the concrete
all-quota-exhausted run. -/
theorem quota_exhaustion_swallowed_witness :
    ∃ msg, (AIException.genericE "All rounds exhausted") = .genericE msg :=
  quota_exhaustion_swallowed.1 (fun _ ms => ms)
    (fun _r _m => classify_ai_exit 3 "" "model-a") ["model-a"] 10
    (.genericE "All rounds exhausted") rfl

/-! ## lib/memory_limit_wrapper.py (C7) -/

/-- One scan of the `for line in lines` loop of
`get_process_tree_memory_native` (source lines 102-111): a process whose
parent is already a known descendant and which is not yet known is added,
its RSS accumulated, and `found_new` set.  The process table is modelled
as already-parsed `(pid, ppid, rss-in-KB)` triples (the source parses
them from `ps -o pid=,ppid=,rss=` output; malformed lines are skipped). -/
def ps_pass (lines : List (Nat × Nat × Nat)) (desc : List Nat) (total : Nat) :
    List Nat × Nat × Bool :=
  lines.foldl
    (fun st line =>
      if st.1.contains line.2.1 && !(st.1.contains line.1) then
        (line.1 :: st.1, st.2.1 + line.2.2, true)
      else st)
    (desc, total, false)

/-- The `while found_new` saturation loop (source lines 101-111).  Each
productive pass adds at least one of the at most `lines.length` child
pids, so `lines.length + 1` passes always reach the fixpoint; the fuel
argument makes that termination explicit. -/
def ps_loop (lines : List (Nat × Nat × Nat)) : Nat → List Nat → Nat → Nat
  | 0, _, total => total
  | fuel + 1, desc, total =>
    match ps_pass lines desc total with
    | (d, t, f) => if f then ps_loop lines fuel d t else t

/-- `get_process_tree_memory_native` (source lines 81-116): start from
`descendants = {pid}` with a zero total — note the root's own RSS is
never added — saturate, and convert KB to MB. -/
def get_process_tree_memory_native (lines : List (Nat × Nat × Nat)) (pid : Nat) : ℚ :=
  (ps_loop lines (lines.length + 1) [pid] 0 : ℚ) / 1024

/-- C7 (code bug): on a table holding the root process (RSS 500 KB), a
child (300 KB) and a grandchild (50 KB), the native tree-memory scan
returns 350/1024 MB — the grandchild is followed, but the root process's
own RSS is never accumulated, so the result is not the claimed whole-tree
sum 850/1024 MB (the psutil variant of the same computation does include
the root). -/
theorem tree_memory_excludes_root :
    get_process_tree_memory_native [(100, 1, 500), (200, 100, 300), (300, 200, 50)] 100 =
      (350 : ℚ) / 1024 ∧
    get_process_tree_memory_native [(100, 1, 500), (200, 100, 300), (300, 200, 50)] 100 ≠
      (500 + 300 + 50 : ℚ) / 1024 := by
  have hloop : ps_loop [(100, 1, 500), (200, 100, 300), (300, 200, 50)] 4 [100] 0 = 350 := by
    decide
  have h : get_process_tree_memory_native
      [(100, 1, 500), (200, 100, 300), (300, 200, 50)] 100 = (350 : ℚ) / 1024 := by
    unfold get_process_tree_memory_native
    rw [show [(100, 1, 500), (200, 100, 300), (300, 200, 50)].length + 1 = 4 from rfl, hloop]
    norm_num
  refine ⟨h, ?_⟩
  rw [h]
  norm_num

/-! ## C6: get_next_ids mints fresh ids -/

/-- `int(candidate_id.split('-')[1])` with `ValueError`/`IndexError`
mapped to `none` (source lines 812-816 and 822-826). -/
def parse_id_num (cid : String) : Option Int :=
  match splitOnCh '-' cid.data with
  | _ :: second :: _ => pyIntChars second
  | _ => none

/-- `gen_prefix = f"gen{generation:02d}"`. -/
def gen_pre (g : Nat) : String :=
  "gen" ++ String.mk (padChars 2 g)

/-- The `max_id` accumulation loop of `get_next_ids`: for every id that
starts with `gen_prefix + '-'` and whose second dash-component parses as
an integer, take the maximum (`max_id` starts at 0; the CSV loop and the
`claimed_ids` loop share this shape). -/
def max_id_scan (pre : String) (ids : List String) (acc : Int) : Int :=
  ids.foldl
    (fun a cid =>
      if (pre ++ "-").data.isPrefixOf cid.data then
        match parse_id_num cid with
        | some n => max a n
        | none => a
      else a)
    acc

/-- The cleaned ids the CSV loop of `get_next_ids` iterates over:
valid candidate rows of the data region (source lines 806-816). -/
def ledger_ids (rows : List Row) : List String :=
  (rows.drop (start_idx rows)).filterMap
    (fun r => if is_valid_candidate_row r then some (clean_id (r.getD 0 "")) else none)

/-- The final `max_id` of `get_next_ids`: the CSV scan followed by the
`claimed_ids` scan. -/
def next_ids_base (rows : List Row) (g : Nat) (claimed : List String) : Int :=
  max_id_scan (gen_pre g) claimed (max_id_scan (gen_pre g) (ledger_ids rows) 0)

/-- `EvolutionCSV.get_next_ids`:
`[f"{gen_prefix}-{max_id + 1 + i:03d}" for i in range(count)]`. -/
def get_next_ids (rows : List Row) (g count : Nat) (claimed : List String) :
    List String :=
  (List.range count).map
    (fun i : Nat => gen_pre g ++ "-" ++
      String.mk (padChars 3 (next_ids_base rows g claimed + 1 + (i : Int)).toNat))

lemma digitChar_facts (d : Nat) (h : d < 10) :
    (digitChar d).isDigit = true ∧ digitChar d ≠ '-' ∧ digitChar d ≠ '+' ∧
      pyWs (digitChar d) = false ∧ digitVal (digitChar d) = d := by
  interval_cases d <;> exact ⟨by decide, by decide, by decide, by decide, by decide⟩

lemma natCharsAux_mem : ∀ (fuel n : Nat), n < fuel →
    ∀ c ∈ natCharsAux fuel n, ∃ d, d < 10 ∧ c = digitChar d := by
  intro fuel
  induction fuel with
  | zero => intro n h; omega
  | succ f ih =>
    intro n hn c hc
    simp only [natCharsAux] at hc
    by_cases h : n < 10
    · rw [if_pos h] at hc
      exact ⟨n, h, List.mem_singleton.mp hc⟩
    · rw [if_neg h] at hc
      rcases List.mem_append.mp hc with h1 | h2
      · have hlt : n / 10 < f := by
          have := Nat.div_lt_self (show 0 < n by omega) (show 1 < 10 by norm_num)
          omega
        exact ih (n / 10) hlt c h1
      · exact ⟨n % 10, Nat.mod_lt _ (by norm_num), List.mem_singleton.mp h2⟩

lemma natChars_mem (n : Nat) : ∀ c ∈ natChars n, ∃ d, d < 10 ∧ c = digitChar d :=
  natCharsAux_mem (n + 1) n (by omega)

lemma natChars_ne_nil (n : Nat) : natChars n ≠ [] := by
  show natCharsAux (n + 1) n ≠ []
  simp only [natCharsAux]
  by_cases h : n < 10
  · rw [if_pos h]
    simp
  · rw [if_neg h]
    simp

lemma digitsVal_natCharsAux : ∀ (fuel n : Nat), n < fuel →
    digitsVal (natCharsAux fuel n) = n := by
  intro fuel
  induction fuel with
  | zero => intro n h; omega
  | succ f ih =>
    intro n hn
    simp only [natCharsAux]
    by_cases h : n < 10
    · rw [if_pos h]
      show 0 * 10 + digitVal (digitChar n) = n
      rw [(digitChar_facts n h).2.2.2.2]
      omega
    · rw [if_neg h]
      unfold digitsVal
      rw [List.foldl_append]
      have hlt : n / 10 < f := by
        have := Nat.div_lt_self (show 0 < n by omega) (show 1 < 10 by norm_num)
        omega
      have hrec := ih (n / 10) hlt
      unfold digitsVal at hrec
      rw [hrec]
      show n / 10 * 10 + digitVal (digitChar (n % 10)) = n
      rw [(digitChar_facts (n % 10) (Nat.mod_lt _ (by norm_num))).2.2.2.2]
      omega

lemma digitsVal_natChars (n : Nat) : digitsVal (natChars n) = n :=
  digitsVal_natCharsAux (n + 1) n (by omega)

lemma digitsVal_zeros (m : Nat) (l : List Char) :
    digitsVal (List.replicate m '0' ++ l) = digitsVal l := by
  induction m with
  | zero => rfl
  | succ k ih =>
    show digitsVal ('0' :: (List.replicate k '0' ++ l)) = digitsVal l
    unfold digitsVal
    rw [List.foldl_cons]
    have h0 : (0 * 10 + digitVal '0') = 0 := by decide
    rw [h0]
    exact ih

lemma padChars_digitsVal (w n : Nat) : digitsVal (padChars w n) = n := by
  unfold padChars
  rw [digitsVal_zeros, digitsVal_natChars]

lemma padChars_mem (w n : Nat) : ∀ c ∈ padChars w n,
    c.isDigit = true ∧ c ≠ '-' ∧ c ≠ '+' ∧ pyWs c = false := by
  intro c hc
  rcases List.mem_append.mp hc with h1 | h2
  · rw [List.eq_of_mem_replicate h1]
    exact ⟨by decide, by decide, by decide, by decide⟩
  · obtain ⟨d, hd, he⟩ := natChars_mem n c h2
    rw [he]
    obtain ⟨f1, f2, f3, f4, _⟩ := digitChar_facts d hd
    exact ⟨f1, f2, f3, f4⟩

lemma padChars_ne_nil (w n : Nat) : padChars w n ≠ [] := by
  unfold padChars
  intro h
  exact natChars_ne_nil n (List.append_eq_nil.mp h).2

lemma stripCharSet_eq_self (p : Char → Bool) (l : List Char)
    (h : ∀ c ∈ l, p c = false) : stripCharSet p l = l := by
  unfold stripCharSet
  have h1 : l.dropWhile p = l := by
    cases l with
    | nil => rfl
    | cons c cs =>
      rw [List.dropWhile_cons, h c (List.mem_cons_self c cs)]
      simp
  rw [h1]
  have h2 : l.reverse.dropWhile p = l.reverse := by
    cases hrev : l.reverse with
    | nil => rfl
    | cons c cs =>
      rw [List.dropWhile_cons,
        h c (List.mem_reverse.mp (hrev ▸ List.mem_cons_self c cs))]
      simp
  rw [h2, List.reverse_reverse]

lemma pyIntChars_digits (l : List Char) (hne : l ≠ [])
    (hd : ∀ c ∈ l, c.isDigit = true ∧ c ≠ '-' ∧ c ≠ '+' ∧ pyWs c = false) :
    pyIntChars l = some ((digitsVal l : Nat) : Int) := by
  unfold pyIntChars
  rw [stripCharSet_eq_self pyWs l (fun c hc => (hd c hc).2.2.2)]
  cases l with
  | nil => exact absurd rfl hne
  | cons c cs =>
    show (if c = '-' then _ else if c = '+' then _ else
      if (c :: cs).all Char.isDigit then some ((digitsVal (c :: cs) : Nat) : Int) else none) = _
    rw [if_neg (hd c (List.mem_cons_self c cs)).2.1,
      if_neg (hd c (List.mem_cons_self c cs)).2.2.1,
      if_pos (List.all_eq_true.mpr (fun x hx => (hd x hx).1))]

lemma splitOnCh_ne_nil (sep : Char) (l : List Char) : splitOnCh sep l ≠ [] := by
  cases l with
  | nil => simp [splitOnCh]
  | cons c cs =>
    simp only [splitOnCh]
    by_cases h : c = sep
    · rw [if_pos h]
      simp
    · rw [if_neg h]
      cases hs : splitOnCh sep cs <;> simp

lemma splitOnCh_no_sep (sep : Char) (l : List Char) (h : ∀ c ∈ l, c ≠ sep) :
    splitOnCh sep l = [l] := by
  induction l with
  | nil => rfl
  | cons c cs ih =>
    simp only [splitOnCh]
    rw [if_neg (h c (List.mem_cons_self c cs)),
      ih (fun x hx => h x (List.mem_cons_of_mem c hx))]

lemma splitOnCh_append (sep : Char) (a b : List Char) (h : ∀ c ∈ a, c ≠ sep) :
    splitOnCh sep (a ++ sep :: b) = a :: splitOnCh sep b := by
  induction a with
  | nil =>
    show splitOnCh sep (sep :: b) = [] :: splitOnCh sep b
    simp [splitOnCh]
  | cons c cs ih =>
    show splitOnCh sep (c :: (cs ++ sep :: b)) = (c :: cs) :: splitOnCh sep b
    simp only [splitOnCh]
    rw [if_neg (h c (List.mem_cons_self c cs)),
      ih (fun x hx => h x (List.mem_cons_of_mem c hx))]

lemma gen_pre_data (g : Nat) : (gen_pre g).data = 'g' :: 'e' :: 'n' :: padChars 2 g := by
  unfold gen_pre
  rw [String.data_append]
  rfl

lemma gen_pre_dash_data (g : Nat) (t : String) :
    (gen_pre g ++ "-" ++ t).data = ('g' :: 'e' :: 'n' :: padChars 2 g) ++ '-' :: t.data := by
  rw [String.data_append, String.data_append, gen_pre_data]
  rw [List.append_assoc]
  rfl

lemma gen_pre_chars_no_dash (g : Nat) :
    ∀ c ∈ 'g' :: 'e' :: 'n' :: padChars 2 g, c ≠ '-' := by
  intro c hc
  rcases List.mem_cons.mp hc with h | hc
  · rw [h]
    decide
  rcases List.mem_cons.mp hc with h | hc
  · rw [h]
    decide
  rcases List.mem_cons.mp hc with h | hc
  · rw [h]
    decide
  exact (padChars_mem 2 g c hc).2.1

lemma parse_id_num_padded (g k : Nat) :
    parse_id_num (gen_pre g ++ "-" ++ String.mk (padChars 3 k)) = some ((k : Nat) : Int) := by
  unfold parse_id_num
  rw [gen_pre_dash_data]
  rw [splitOnCh_append '-' _ _ (gen_pre_chars_no_dash g)]
  rw [show (String.mk (padChars 3 k)).data = padChars 3 k from rfl]
  rw [splitOnCh_no_sep '-' (padChars 3 k) (fun c hc => (padChars_mem 3 k c hc).2.1)]
  show pyIntChars (padChars 3 k) = some ((k : Nat) : Int)
  rw [pyIntChars_digits (padChars 3 k) (padChars_ne_nil 3 k) (padChars_mem 3 k),
    padChars_digitsVal]

lemma isPrefixOf_append_self (a b : List Char) : a.isPrefixOf (a ++ b) = true := by
  induction a with
  | nil => simp [List.isPrefixOf]
  | cons c cs ih =>
    show (c :: cs).isPrefixOf (c :: (cs ++ b)) = true
    simp only [List.isPrefixOf, beq_self_eq_true, Bool.true_and]
    exact ih

lemma max_id_scan_ge_acc (pre : String) :
    ∀ (ids : List String) (acc : Int), acc ≤ max_id_scan pre ids acc := by
  intro ids
  induction ids with
  | nil => intro acc; exact le_refl acc
  | cons x xs ih =>
    intro acc
    show acc ≤ max_id_scan pre xs
      (if (pre ++ "-").data.isPrefixOf x.data then
        (match parse_id_num x with | some n => max acc n | none => acc) else acc)
    refine le_trans ?_ (ih _)
    by_cases hp : (pre ++ "-").data.isPrefixOf x.data = true
    · rw [if_pos hp]
      cases hparse : parse_id_num x with
      | some n => exact le_max_left acc n
      | none => exact le_refl acc
    · rw [if_neg hp]

lemma max_id_scan_ge_elem (pre : String) (x : String) (n : Int)
    (hpre : (pre ++ "-").data.isPrefixOf x.data = true)
    (hparse : parse_id_num x = some n) :
    ∀ (ids : List String) (acc : Int), x ∈ ids → n ≤ max_id_scan pre ids acc := by
  intro ids
  induction ids with
  | nil => intro acc hx; exact absurd hx (List.not_mem_nil x)
  | cons y ys ih =>
    intro acc hx
    show n ≤ max_id_scan pre ys
      (if (pre ++ "-").data.isPrefixOf y.data then
        (match parse_id_num y with | some k => max acc k | none => acc) else acc)
    rcases List.mem_cons.mp hx with he | hmem
    · subst he
      rw [if_pos hpre, hparse]
      exact le_trans (le_max_right acc n) (max_id_scan_ge_acc pre ys _)
    · exact ih _ hmem

lemma next_ids_base_nonneg (rows : List Row) (g : Nat) (claimed : List String) :
    0 ≤ next_ids_base rows g claimed :=
  le_trans (max_id_scan_ge_acc (gen_pre g) (ledger_ids rows) 0)
    (max_id_scan_ge_acc (gen_pre g) claimed _)

lemma clean_id_of_invalid (r : Row) (h : is_valid_candidate_row r = false) :
    clean_id (r.getD 0 "") = "" := by
  cases r with
  | nil => rfl
  | cons c cs =>
    have h' : (c == "" || pystrip c == "") = true := by
      by_contra hne
      have hb : (c == "" || pystrip c == "") = false := Bool.eq_false_iff.mpr hne
      have hv : is_valid_candidate_row (c :: cs) = true := by
        show (!(c == "" || pystrip c == "")) = true
        rw [hb]
        rfl
      rw [hv] at h
      exact absurd h (by decide)
    have h'' : c = "" ∨ pystrip c = "" := by simpa using h'
    show clean_id c = ""
    rcases h'' with h1 | h2
    · rw [h1]
      rfl
    · unfold clean_id
      rw [h2]
      rfl

lemma generated_id_ne_empty (g k : Nat) :
    gen_pre g ++ "-" ++ String.mk (padChars 3 k) ≠ "" := by
  intro h
  have := congrArg String.data h
  rw [gen_pre_dash_data] at this
  exact absurd this (by simp)

/-- The property of a generated id that forces it into the `max_id`
scan: it starts with the prefix and parses back to its own number, which
exceeds `max_id` — so it can equal no scanned id. -/
lemma generated_id_not_scanned (rows : List Row) (g : Nat) (claimed : List String)
    (i : Nat) (x : String) (hx : x ∈ claimed ∨ x ∈ ledger_ids rows) :
    x ≠ gen_pre g ++ "-" ++
      String.mk (padChars 3 (next_ids_base rows g claimed + 1 + (i : Int)).toNat) := by
  intro he
  set m := next_ids_base rows g claimed with hm
  have hm0 : 0 ≤ m := next_ids_base_nonneg rows g claimed
  have hcast : (((m + 1 + i).toNat : Nat) : Int) = m + 1 + i :=
    Int.toNat_of_nonneg (by omega)
  have hpre : (gen_pre g ++ "-").data.isPrefixOf x.data = true := by
    rw [he, gen_pre_dash_data]
    rw [show (gen_pre g ++ "-").data = ('g' :: 'e' :: 'n' :: padChars 2 g) ++ ['-'] by
      rw [String.data_append, gen_pre_data]]
    rw [show (('g' :: 'e' :: 'n' :: padChars 2 g) ++ '-' ::
        (String.mk (padChars 3 (m + 1 + i).toNat)).data) =
      ((('g' :: 'e' :: 'n' :: padChars 2 g) ++ ['-']) ++ padChars 3 (m + 1 + i).toNat) by
      rw [List.append_assoc]
      rfl]
    exact isPrefixOf_append_self _ _
  have hparse : parse_id_num x = some (((m + 1 + i).toNat : Nat) : Int) := by
    rw [he]
    exact parse_id_num_padded g (m + 1 + i).toNat
  have hle : (((m + 1 + i).toNat : Nat) : Int) ≤ m := by
    rcases hx with hcl | hled
    · exact max_id_scan_ge_elem (gen_pre g) x _ hpre hparse claimed _ hcl
    · refine le_trans
        (max_id_scan_ge_elem (gen_pre g) x _ hpre hparse (ledger_ids rows) 0 hled)
        (max_id_scan_ge_acc (gen_pre g) claimed _)
  rw [hcast] at hle
  omega

/-- C6: `get_next_ids` returns `count` pairwise-distinct ids of the form
`genGG-NNN`, none of which equals the cleaned id of any data row of the
ledger nor any id in `claimed`. -/
theorem next_ids_fresh :
    ∀ (rows : List Row) (g count : Nat) (claimed : List String),
      (get_next_ids rows g count claimed).length = count ∧
      (get_next_ids rows g count claimed).Nodup ∧
      (∀ id ∈ get_next_ids rows g count claimed,
        ∃ n, 1 ≤ n ∧ id = gen_pre g ++ "-" ++ String.mk (padChars 3 n)) ∧
      (∀ id ∈ get_next_ids rows g count claimed,
        ∀ r ∈ rows.drop (start_idx rows), clean_id (r.getD 0 "") ≠ id) ∧
      (∀ id ∈ get_next_ids rows g count claimed, ∀ c ∈ claimed, c ≠ id) := by
  intro rows g count claimed
  set m := next_ids_base rows g claimed with hm
  have hm0 : 0 ≤ m := next_ids_base_nonneg rows g claimed
  have hinj : Function.Injective
      (fun i : Nat => gen_pre g ++ "-" ++
        String.mk (padChars 3 (m + 1 + (i : Int)).toNat)) := by
    intro i j he
    have hdata := congrArg String.data he
    rw [gen_pre_dash_data, gen_pre_dash_data] at hdata
    have hpad : padChars 3 (m + 1 + i).toNat = padChars 3 (m + 1 + j).toNat := by
      have h2 := List.append_cancel_left hdata
      have h3 := (List.cons.injEq _ _ _ _).mp h2
      exact h3.2
    have hval := congrArg digitsVal hpad
    rw [padChars_digitsVal, padChars_digitsVal] at hval
    have hi : (((m + 1 + i).toNat : Nat) : Int) = m + 1 + i :=
      Int.toNat_of_nonneg (by omega)
    have hj : (((m + 1 + j).toNat : Nat) : Int) = m + 1 + j :=
      Int.toNat_of_nonneg (by omega)
    omega
  have hmem : ∀ id ∈ get_next_ids rows g count claimed,
      ∃ i : Nat, i < count ∧
        id = gen_pre g ++ "-" ++ String.mk (padChars 3 (m + 1 + (i : Int)).toNat) := by
    intro id hid
    unfold get_next_ids at hid
    rw [List.mem_map] at hid
    obtain ⟨i, hi, he⟩ := hid
    exact ⟨i, List.mem_range.mp hi, he.symm⟩
  refine ⟨?_, ?_, ?_, ?_, ?_⟩
  · unfold get_next_ids
    rw [List.length_map, List.length_range]
  · exact List.Nodup.map hinj (List.nodup_range count)
  · intro id hid
    obtain ⟨i, _, he⟩ := hmem id hid
    refine ⟨(m + 1 + i).toNat, ?_, he⟩
    have hcast : (((m + 1 + i).toNat : Nat) : Int) = m + 1 + i :=
      Int.toNat_of_nonneg (by omega)
    omega
  · intro id hid r hr
    obtain ⟨i, _, he⟩ := hmem id hid
    by_cases hv : is_valid_candidate_row r = true
    · have hin : clean_id (r.getD 0 "") ∈ ledger_ids rows := by
        unfold ledger_ids
        rw [List.mem_filterMap]
        exact ⟨r, hr, by rw [if_pos hv]⟩
      rw [he]
      exact generated_id_not_scanned rows g claimed i _ (Or.inr hin)
    · rw [clean_id_of_invalid r (Bool.eq_false_iff.mpr hv), he]
      exact fun hc => generated_id_ne_empty g _ hc.symm
  · intro id hid c hc
    obtain ⟨i, _, he⟩ := hmem id hid
    rw [he]
    exact generated_id_not_scanned rows g claimed i c (Or.inl hc)

/-- C6 witness: with ledger id `gen05-003` and claimed id `gen05-007`,
`gen05-008` is minted and collides with neither. -/
theorem next_ids_fresh_witness :
    "gen05-008" ∈ get_next_ids
      [["id", "basedOnId", "description", "performance", "status"],
       ["gen05-003", "", "", "", "complete"]] 5 2 ["gen05-007"] ∧
    clean_id (((["gen05-003", "", "", "", "complete"] : Row)).getD 0 "") ≠ "gen05-008" ∧
    "gen05-007" ≠ "gen05-008" := by
  have h := next_ids_fresh
    [["id", "basedOnId", "description", "performance", "status"],
     ["gen05-003", "", "", "", "complete"]] 5 2 ["gen05-007"]
  have hmem : "gen05-008" ∈ get_next_ids
      [["id", "basedOnId", "description", "performance", "status"],
       ["gen05-003", "", "", "", "complete"]] 5 2 ["gen05-007"] := by decide
  refine ⟨hmem, ?_, ?_⟩
  · exact h.2.2.2.1 "gen05-008" hmem ["gen05-003", "", "", "", "complete"] (by decide)
  · exact h.2.2.2.2 "gen05-008" hmem "gen05-007" (by decide)

/-! ## C4: evaluator output parsing (Worker._parse_evaluator_output)

The Python side uses `json.loads` and `float(...)`; these are modelled
below for the ASCII fragment they meet here (JSON numbers as exact
rationals, no `\uXXXX` surrogate pairing, no `inf`/`nan`/underscore
float literals). -/

/-- JSON values (numbers as exact rationals). -/
inductive JVal : Type
  | jnull
  | jbool (b : Bool)
  | jnum (q : ℚ)
  | jstr (s : String)
  | jarr (items : List JVal)
  | jobj (fields : List (String × JVal))

/-- JSON whitespace (the set `json.loads` skips between tokens). -/
def jsonWs (c : Char) : Bool :=
  c = ' ' || c = '\t' || c = '\n' || c = '\r'

/-- Skip JSON whitespace. -/
def jskipWs (cs : List Char) : List Char :=
  cs.dropWhile jsonWs

/-- JSON string escapes (`\uXXXX` is handled separately). -/
def escChar (e : Char) : Option Char :=
  match e with
  | '"' => some '"'
  | '\\' => some '\\'
  | '/' => some '/'
  | 'b' => some '\x08'
  | 'f' => some '\x0c'
  | 'n' => some '\n'
  | 'r' => some '\r'
  | 't' => some '\t'
  | _ => none

/-- Hexadecimal digit test. -/
def isHexDig (c : Char) : Bool :=
  c.isDigit || ('a' ≤ c && c ≤ 'f') || ('A' ≤ c && c ≤ 'F')

/-- Hexadecimal digit value. -/
def hexVal (c : Char) : Nat :=
  if c.isDigit then c.toNat - 48
  else if c ≤ 'F' then c.toNat - 55
  else c.toNat - 87

/-- JSON string body after the opening quote: collect characters up to
the closing quote, handling escapes; raw control characters and invalid
escapes are rejected, as in `json.loads` (surrogate pairing of `\uXXXX`
is not modelled). -/
def jstringChars : List Char → Option (List Char × List Char)
  | [] => none
  | '"' :: rest => some ([], rest)
  | '\\' :: 'u' :: a :: b :: c2 :: d :: rest =>
    if isHexDig a && isHexDig b && isHexDig c2 && isHexDig d then
      (jstringChars rest).map
        (fun sr => (Char.ofNat (hexVal a * 4096 + hexVal b * 256 + hexVal c2 * 16 + hexVal d) :: sr.1, sr.2))
    else none
  | '\\' :: e :: rest =>
    match escChar e with
    | none => none
    | some ce => (jstringChars rest).map (fun sr => (ce :: sr.1, sr.2))
  | c :: rest =>
    if c.toNat < 32 then none
    else (jstringChars rest).map (fun sr => (c :: sr.1, sr.2))

/-- Optional fraction part of a JSON number (`.digits`); a dot without
digits is a syntax error.  Without a fraction the value stays a plain
natural-number cast. -/
def jfrac (ip : Nat) (r1 : List Char) : Option (ℚ × List Char) :=
  match r1 with
  | [] => some ((ip : ℚ), [])
  | c :: r =>
    if c = '.' then
      if (r.takeWhile Char.isDigit).isEmpty then none
      else some ((ip : ℚ) + (digitsVal (r.takeWhile Char.isDigit) : ℚ) /
          (10 : ℚ) ^ (r.takeWhile Char.isDigit).length,
        r.dropWhile Char.isDigit)
    else some ((ip : ℚ), c :: r)

/-- Exponent digits of a JSON number. -/
def jexpDigits (man : ℚ) (negE : Bool) (r : List Char) : Option (ℚ × List Char) :=
  if (r.takeWhile Char.isDigit).isEmpty then none
  else some
    ((if negE then man / (10 : ℚ) ^ digitsVal (r.takeWhile Char.isDigit)
      else man * (10 : ℚ) ^ digitsVal (r.takeWhile Char.isDigit)),
     r.dropWhile Char.isDigit)

/-- Exponent sign of a JSON number. -/
def jexpAux (man : ℚ) (r : List Char) : Option (ℚ × List Char) :=
  match r with
  | [] => none
  | c :: rr =>
    if c = '+' then jexpDigits man false rr
    else if c = '-' then jexpDigits man true rr
    else jexpDigits man false (c :: rr)

/-- Optional exponent part of a JSON number (`e`/`E`). -/
def jexp (man : ℚ) (r2 : List Char) : Option (ℚ × List Char) :=
  match r2 with
  | [] => some (man, [])
  | c :: r =>
    if c = 'e' || c = 'E' then jexpAux man r
    else some (man, c :: r)

/-- Magnitude of a JSON number: `0 | [1-9]digits`, optional fraction and
exponent (leading zeros are a syntax error, as in JSON). -/
def jnumMag : List Char → Option (ℚ × List Char)
  | [] => none
  | c :: r =>
    if c = '0' then (jfrac 0 r).bind (fun mr => jexp mr.1 mr.2)
    else if c.isDigit then
      (jfrac (digitsVal ((c :: r).takeWhile Char.isDigit))
          ((c :: r).dropWhile Char.isDigit)).bind
        (fun mr => jexp mr.1 mr.2)
    else none

/-- A JSON number, with optional leading minus. -/
def jnumber (cs : List Char) : Option (JVal × List Char) :=
  match cs with
  | [] => none
  | c :: r =>
    if c = '-' then (jnumMag r).map (fun vr => (JVal.jnum (-vr.1), vr.2))
    else (jnumMag (c :: r)).map (fun vr => (JVal.jnum vr.1, vr.2))

/-- `dict` insertion as performed by `json.loads` on duplicate keys: the
value is replaced in place, otherwise the pair is appended (insertion
order preserved). -/
def insertKV (fields : List (String × JVal)) (k : String) (v : JVal) :
    List (String × JVal) :=
  if fields.any (fun kv => kv.1 == k) then
    fields.map (fun kv => if kv.1 == k then (kv.1, v) else kv)
  else fields ++ [(k, v)]

mutual

/-- Recursive-descent JSON value (fuel only bounds the recursion; the
callers always supply enough). -/
def jval : Nat → List Char → Option (JVal × List Char)
  | 0, _ => none
  | fuel + 1, cs =>
    match jskipWs cs with
    | [] => none
    | c :: rest =>
      if c = '\x7b' then
        match jskipWs rest with
        | '\x7d' :: r2 => some (.jobj [], r2)
        | r2 => jobjFields fuel r2 []
      else if c = '[' then
        match jskipWs rest with
        | ']' :: r2 => some (.jarr [], r2)
        | r2 => jarrItems fuel r2 []
      else if c = '"' then
        (jstringChars rest).map (fun sr => (.jstr (String.mk sr.1), sr.2))
      else if c = 't' then
        match rest with
        | 'r' :: 'u' :: 'e' :: r2 => some (.jbool true, r2)
        | _ => none
      else if c = 'f' then
        match rest with
        | 'a' :: 'l' :: 's' :: 'e' :: r2 => some (.jbool false, r2)
        | _ => none
      else if c = 'n' then
        match rest with
        | 'u' :: 'l' :: 'l' :: r2 => some (.jnull, r2)
        | _ => none
      else jnumber (c :: rest)

/-- Members of a JSON object (after the opening brace, first key next). -/
def jobjFields : Nat → List Char → List (String × JVal) →
    Option (JVal × List Char)
  | 0, _, _ => none
  | fuel + 1, cs, acc =>
    match jskipWs cs with
    | '"' :: rest =>
      match jstringChars rest with
      | none => none
      | some (key, r1) =>
        match jskipWs r1 with
        | ':' :: r2 =>
          match jval fuel r2 with
          | none => none
          | some (v, r3) =>
            match jskipWs r3 with
            | ',' :: r4 => jobjFields fuel r4 (insertKV acc (String.mk key) v)
            | '\x7d' :: r4 => some (.jobj (insertKV acc (String.mk key) v), r4)
            | _ => none
        | _ => none
    | _ => none

/-- Items of a JSON array (after the opening bracket, first item next). -/
def jarrItems : Nat → List Char → List JVal → Option (JVal × List Char)
  | 0, _, _ => none
  | fuel + 1, cs, acc =>
    match jval fuel cs with
    | none => none
    | some (v, r1) =>
      match jskipWs r1 with
      | ',' :: r2 => jarrItems fuel r2 (acc ++ [v])
      | ']' :: r2 => some (.jarr (acc ++ [v]), r2)
      | _ => none

end

/-- `json.loads` on a whole string: one value, then only whitespace. -/
def jloads (s : String) : Option JVal :=
  match jval (s.length + 1) s.data with
  | some (v, rest) => if (jskipWs rest).isEmpty then some v else none
  | none => none

/-- `json.loads` of a stripped line that starts with `{` — success always
yields an object, whose field list the caller keeps. -/
def json_loads_line (line : String) : Option (List (String × JVal)) :=
  match jloads line with
  | some (.jobj fields) => some fields
  | _ => none

/-- Model of Python `float(s)` (plain ASCII decimal and exponent
literals; `inf`/`nan` and underscore separators are not modelled).  The
whole string must be consumed.  Integer-only literals stay plain
natural-number casts. -/
def pyFloatChars (cs : List Char) : Option ℚ :=
  let t := stripCharSet pyWs cs
  match t with
  | [] => none
  | c0 :: r0 =>
    let (neg, body) :=
      if c0 = '-' then (true, r0)
      else if c0 = '+' then (false, r0)
      else (false, c0 :: r0)
    let d1 := body.takeWhile Char.isDigit
    let r1 := body.dropWhile Char.isDigit
    let manOpt : Option (ℚ × List Char) :=
      match r1 with
      | '.' :: r2 =>
        let d2 := r2.takeWhile Char.isDigit
        if d1.isEmpty && d2.isEmpty then none
        else if d2.isEmpty then some ((digitsVal d1 : ℚ), r2.dropWhile Char.isDigit)
        else some ((digitsVal d1 : ℚ) + (digitsVal d2 : ℚ) / (10 : ℚ) ^ d2.length,
          r2.dropWhile Char.isDigit)
      | _ =>
        if d1.isEmpty then none
        else some (((digitsVal d1 : Nat) : ℚ), r1)
    match manOpt with
    | none => none
    | some (man, r2) =>
      match r2 with
      | [] => some (if neg then -man else man)
      | e :: r3 =>
        if e = 'e' || e = 'E' then
          let (negE, r4) :=
            match r3 with
            | '+' :: rr => (false, rr)
            | '-' :: rr => (true, rr)
            | _ => (false, r3)
          let dE := r4.takeWhile Char.isDigit
          if dE.isEmpty then none
          else if (r4.dropWhile Char.isDigit).isEmpty then
            some (if neg then
                -(if negE then man / (10 : ℚ) ^ digitsVal dE else man * (10 : ℚ) ^ digitsVal dE)
              else
                (if negE then man / (10 : ℚ) ^ digitsVal dE else man * (10 : ℚ) ^ digitsVal dE))
          else none
        else none

/-- Python `float(s)` on a string. -/
def pyFloatStr (s : String) : Option ℚ :=
  pyFloatChars s.data

/-- `float(...)` applied to a JSON value (`float(True) = 1.0`; `None`,
lists and dicts would raise `TypeError`, which `_parse_evaluator_output`
does not catch — `_run_evaluator`'s blanket `except Exception` would;
modelled as failure, unexercised by the claims). -/
def pyFloatOfJVal : JVal → Option ℚ
  | .jnum q => some q
  | .jstr s => pyFloatStr s
  | .jbool b => some (if b then 1 else 0)
  | _ => none

/-- `'performance' in data` membership and `data[...]` lookup (keys are
unique by `insertKV` construction). -/
def dictLookup (fields : List (String × JVal)) (k : String) : Option JVal :=
  match fields.find? (fun kv => kv.1 == k) with
  | some kv => some kv.2
  | none => none

/-- Outcome of the JSON branch of the scan loop for one parsed line
(source lines 397-403): a numeric `performance`/`score` breaks with the
score, a key present but unconvertible raises `ValueError` (caught, loop
continues with `json_data` already set), no key breaks with the score
unchanged. -/
inductive JsonStep : Type
  | breakWith (score : Option ℚ)
  | valueErrorContinue

/-- Dispatch on the `performance`/`score` keys of a parsed JSON line. -/
def json_line_step (fields : List (String × JVal)) : JsonStep :=
  match dictLookup fields "performance" with
  | some v =>
    match pyFloatOfJVal v with
    | some q => .breakWith (some q)
    | none => .valueErrorContinue
  | none =>
    match dictLookup fields "score" with
    | some v =>
      match pyFloatOfJVal v with
      | some q => .breakWith (some q)
      | none => .valueErrorContinue
    | none => .breakWith none

/-- The line loop of `Worker._parse_evaluator_output` (source lines
391-413): lines are scanned IN ORDER; the first line that parses as JSON
(breaking) or as a bare number (when no score is set yet) stops the
scan.  `json_data` keeps the fields of the last successfully loaded
JSON line. -/
def scan_lines (score0 : Option ℚ) (jdata : List (String × JVal)) :
    List String → Option ℚ × List (String × JVal)
  | [] => (score0, jdata)
  | l :: rest =>
    if pystartswith (pystrip l) "\x7b" then
      match json_loads_line (pystrip l) with
      | some fields =>
        match json_line_step fields with
        | .breakWith (some q) => (some q, fields)
        | .breakWith none => (score0, fields)
        | .valueErrorContinue => scan_lines score0 fields rest
      | none => scan_lines score0 jdata rest
    else if score0.isNone && !(pystrip l == "") then
      match pyFloatStr (pystrip l) with
      | some q => (some q, jdata)
      | none => scan_lines score0 jdata rest
    else scan_lines score0 jdata rest

/-- One candidate position of the `re.MULTILINE` search
`^SCORE:\s*([+-]?\d*\.?\d+)`: a line beginning `SCORE:`, then
whitespace, then the number group (a prefix of the remainder; the
backtracking semantics of `\d*\.?\d+` make `12.` match `12`). -/
def regex_number (cs : List Char) : Option ℚ :=
  let (neg, body) :=
    match cs with
    | '+' :: r => (false, r)
    | '-' :: r => (true, r)
    | _ => (false, cs)
  let d1 := body.takeWhile Char.isDigit
  let r1 := body.dropWhile Char.isDigit
  match r1 with
  | '.' :: r2 =>
    if (r2.takeWhile Char.isDigit).isEmpty then
      if d1.isEmpty then none
      else some (if neg then -((digitsVal d1 : Nat) : ℚ) else ((digitsVal d1 : Nat) : ℚ))
    else
      some (if neg then
          -((digitsVal d1 : ℚ) + (digitsVal (r2.takeWhile Char.isDigit) : ℚ) /
            (10 : ℚ) ^ (r2.takeWhile Char.isDigit).length)
        else
          (digitsVal d1 : ℚ) + (digitsVal (r2.takeWhile Char.isDigit) : ℚ) /
            (10 : ℚ) ^ (r2.takeWhile Char.isDigit).length)
  | _ =>
    if d1.isEmpty then none
    else some (if neg then -((digitsVal d1 : Nat) : ℚ) else ((digitsVal d1 : Nat) : ℚ))

/-- One line of the `^SCORE:` fallback. -/
def score_line (l : List Char) : Option ℚ :=
  if "SCORE:".data.isPrefixOf l then
    regex_number ((l.drop 6).dropWhile pyWs)
  else none

/-- The `re.search(^SCORE:..., output, re.MULTILINE)` fallback (source
lines 416-422), applied to the unstripped output: the first line (in
order) that matches yields the score. -/
def score_regex (output : String) : Option ℚ :=
  (splitOnCh '\n' output.data).findSome? score_line

/-- `Worker._parse_evaluator_output` (source lines 379-424). -/
def parse_evaluator_output (output : String) :
    Option ℚ × List (String × JVal) :=
  let res := scan_lines none []
    ((splitOnCh '\n' (pystrip output).data).map String.mk)
  match res.1 with
  | some q => (some q, res.2)
  | none => (score_regex output, res.2)

/-- The extra-column selection of `Worker.process_candidate` (source
lines 544-547): every JSON key other than `performance` and `score` is
written to the ledger (the `str(...)` rendering is not modelled). -/
def extra_updates (jdata : List (String × JVal)) : List (String × JVal) :=
  jdata.filter (fun kv => !(kv.1 == "performance") && !(kv.1 == "score"))

/-! ### C4 support lemmas -/

lemma digitChar_mem_digits (d : Nat) (h : d < 10) :
    digitChar d ∈ (['0', '1', '2', '3', '4', '5', '6', '7', '8', '9'] : List Char) := by
  interval_cases d <;> decide

lemma digitChar_prop (P : Char → Prop) [DecidablePred P]
    (hP : ∀ c ∈ (['0', '1', '2', '3', '4', '5', '6', '7', '8', '9'] : List Char), P c)
    (d : Nat) (h : d < 10) : P (digitChar d) :=
  hP _ (digitChar_mem_digits d h)

lemma natChars_prop (P : Char → Prop) [DecidablePred P]
    (hP : ∀ c ∈ (['0', '1', '2', '3', '4', '5', '6', '7', '8', '9'] : List Char), P c)
    (n : Nat) : ∀ c ∈ natChars n, P c := by
  intro c hc
  obtain ⟨d, hd, he⟩ := natChars_mem n c hc
  rw [he]
  exact digitChar_prop P hP d hd

lemma mk_data (s : String) : String.mk s.data = s := by
  cases s
  rfl

lemma map_mk_data (ls : List String) : (ls.map String.data).map String.mk = ls := by
  rw [List.map_map, show String.mk ∘ String.data = id from funext mk_data, List.map_id]

lemma stripCharSet_ends (p : Char → Bool) (c1 c2 : Char) (mid : List Char)
    (h1 : p c1 = false) (h2 : p c2 = false) :
    stripCharSet p (c1 :: (mid ++ [c2])) = c1 :: (mid ++ [c2]) := by
  unfold stripCharSet
  rw [List.dropWhile_cons, h1]
  simp only [Bool.false_eq_true, if_false]
  rw [show c1 :: (mid ++ [c2]) = (c1 :: mid) ++ [c2] from rfl, List.reverse_concat,
    List.dropWhile_cons, h2]
  simp only [Bool.false_eq_true, if_false]
  rw [← List.reverse_concat, List.reverse_reverse]

lemma takeWhile_append_not (p : Char → Bool) (a : List Char) (c0 : Char) (r : List Char)
    (ha : ∀ x ∈ a, p x = true) (h0 : p c0 = false) :
    (a ++ c0 :: r).takeWhile p = a := by
  induction a with
  | nil =>
    rw [List.nil_append, List.takeWhile_cons, h0]
    rfl
  | cons x xs ih =>
    rw [List.cons_append, List.takeWhile_cons, ha x (List.mem_cons_self x xs)]
    rw [ih (fun y hy => ha y (List.mem_cons_of_mem x hy))]
    rfl

lemma dropWhile_append_not (p : Char → Bool) (a : List Char) (c0 : Char) (r : List Char)
    (ha : ∀ x ∈ a, p x = true) (h0 : p c0 = false) :
    (a ++ c0 :: r).dropWhile p = c0 :: r := by
  induction a with
  | nil =>
    rw [List.nil_append, List.dropWhile_cons, h0]
    rfl
  | cons x xs ih =>
    rw [List.cons_append, List.dropWhile_cons, ha x (List.mem_cons_self x xs)]
    simp only [if_true]
    exact ih (fun y hy => ha y (List.mem_cons_of_mem x hy))

lemma natCharsAux_ne_nil : ∀ (fuel n : Nat), n < fuel → natCharsAux fuel n ≠ [] := by
  intro fuel
  induction fuel with
  | zero => intro n h; omega
  | succ f ih =>
    intro n hn
    simp only [natCharsAux]
    by_cases h : n < 10
    · rw [if_pos h]
      simp
    · rw [if_neg h]
      simp

lemma natCharsAux_head_ne_zero : ∀ (fuel n : Nat), n < fuel → 0 < n →
    ∀ c cs, natCharsAux fuel n = c :: cs → c ≠ '0' := by
  intro fuel
  induction fuel with
  | zero => intro n h; omega
  | succ f ih =>
    intro n hn hpos c cs heq
    simp only [natCharsAux] at heq
    by_cases h : n < 10
    · rw [if_pos h] at heq
      injection heq with he1 he2
      rw [← he1]
      interval_cases n <;> decide
    · rw [if_neg h] at heq
      have hlt : n / 10 < f := by
        have := Nat.div_lt_self (show 0 < n by omega) (show 1 < 10 by norm_num)
        omega
      cases haux : natCharsAux f (n / 10) with
      | nil => exact absurd haux (natCharsAux_ne_nil f (n / 10) hlt)
      | cons c' cs' =>
        rw [haux] at heq
        have hc : c' = c := by
          have hh := congrArg List.head? heq
          simpa using hh
        rw [← hc]
        have hpos' : 0 < n / 10 := Nat.div_pos (by omega) (by norm_num)
        exact ih (n / 10) hlt hpos' c' cs' haux

lemma natChars_head_ne_zero (n : Nat) (hpos : 0 < n) (c : Char) (cs : List Char)
    (heq : natChars n = c :: cs) : c ≠ '0' :=
  natCharsAux_head_ne_zero (n + 1) n (by omega) hpos c cs heq

/-! ### C4: the claim's trailing JSON line and its parse -/

/-- The claim's final line `{"performance": X, "extra": Y}` for natural
numbers `X`, `Y`. -/
def jline (X Y : Nat) : String :=
  "\x7b\"performance\": " ++ String.mk (natChars X) ++ ", \"extra\": " ++
    String.mk (natChars Y) ++ "\x7d"

/-- Character-level view of `jline`. -/
def jlineChars (X Y : Nat) : List Char :=
  "\x7b\"performance\": ".data ++ natChars X ++ ", \"extra\": ".data ++
    natChars Y ++ "\x7d".data

lemma jline_data (X Y : Nat) : (jline X Y).data = jlineChars X Y := rfl

lemma jlineChars_cons (X Y : Nat) :
    jlineChars X Y = '\x7b' :: '"' :: ("performance".data ++ '"' :: ':' :: ' ' ::
      (natChars X ++ ',' :: ' ' :: '"' ::
        ("extra".data ++ '"' :: ':' :: ' ' :: (natChars Y ++ ['\x7d'])))) := by
  unfold jlineChars
  rw [show "\x7b\"performance\": ".data =
      '\x7b' :: '"' :: ("performance".data ++ ['"', ':', ' ']) from rfl,
    show ", \"extra\": ".data = ',' :: ' ' :: '"' :: ("extra".data ++ ['"', ':', ' ']) from rfl,
    show "\x7d".data = ['\x7d'] from rfl]
  simp [List.append_assoc]

lemma jnumber_natChars (X : Nat) (c0 : Char) (r : List Char)
    (h0 : c0.isDigit = false) (h1 : c0 ≠ '.') (h2 : c0 ≠ 'e') (h3 : c0 ≠ 'E') :
    jnumber (natChars X ++ c0 :: r) = some (.jnum ((X : Nat) : ℚ), c0 :: r) := by
  have hexp : ∀ q : ℚ, jexp q (c0 :: r) = some (q, c0 :: r) := by
    intro q
    have e : jexp q (c0 :: r) =
        if (decide (c0 = 'e') || decide (c0 = 'E')) = true then jexpAux q r
        else some (q, c0 :: r) := rfl
    rw [e, decide_eq_false h2, decide_eq_false h3]
    rfl
  have hfrac : ∀ ip : Nat, jfrac ip (c0 :: r) = some ((ip : ℚ), c0 :: r) := by
    intro ip
    have e : jfrac ip (c0 :: r) =
        if c0 = '.' then
          (if (r.takeWhile Char.isDigit).isEmpty then none
           else some ((ip : ℚ) + (digitsVal (r.takeWhile Char.isDigit) : ℚ) /
               (10 : ℚ) ^ (r.takeWhile Char.isDigit).length,
             r.dropWhile Char.isDigit))
        else some ((ip : ℚ), c0 :: r) := rfl
    rw [e, if_neg h1]
  have hbind : ∀ ip : Nat,
      (jfrac ip (c0 :: r)).bind (fun mr => jexp mr.1 mr.2) =
        some ((ip : ℚ), c0 :: r) := by
    intro ip
    rw [hfrac ip]
    rw [show ((some (((ip : Nat) : ℚ), c0 :: r)).bind (fun mr => jexp mr.1 mr.2)) =
      jexp ((ip : Nat) : ℚ) (c0 :: r) from rfl]
    exact hexp _
  by_cases hX : X = 0
  · subst hX
    show jnumber ('0' :: (c0 :: r)) = some (.jnum ((0 : Nat) : ℚ), c0 :: r)
    have s1 : jnumber ('0' :: (c0 :: r)) =
        (jnumMag ('0' :: (c0 :: r))).map (fun vr => (JVal.jnum vr.1, vr.2)) := rfl
    have s2 : jnumMag ('0' :: (c0 :: r)) =
        (jfrac 0 (c0 :: r)).bind (fun mr => jexp mr.1 mr.2) := rfl
    rw [s1, s2, hbind 0]
    rfl
  · cases hnc : natChars X with
    | nil => exact absurd hnc (natChars_ne_nil X)
    | cons c cs =>
      have hm : c ∈ natChars X := by
        rw [hnc]
        exact List.mem_cons_self c cs
      have hcd : c.isDigit = true :=
        natChars_prop (fun x => x.isDigit = true) (by decide) X c hm
      have hcne0 : c ≠ '0' := natChars_head_ne_zero X (by omega) c cs hnc
      have hcdash : c ≠ '-' :=
        natChars_prop (fun x => x ≠ '-') (by decide) X c hm
      have hdigits : ∀ x ∈ natChars X, x.isDigit = true :=
        natChars_prop (fun x => x.isDigit = true) (by decide) X
      rw [List.cons_append]
      have s1 : jnumber (c :: (cs ++ c0 :: r)) =
          if c = '-' then
            (jnumMag (cs ++ c0 :: r)).map (fun vr => (JVal.jnum (-vr.1), vr.2))
          else (jnumMag (c :: (cs ++ c0 :: r))).map
            (fun vr => (JVal.jnum vr.1, vr.2)) := rfl
      have s2 : jnumMag (c :: (cs ++ c0 :: r)) =
          if c = '0' then
            (jfrac 0 (cs ++ c0 :: r)).bind (fun mr => jexp mr.1 mr.2)
          else if c.isDigit then
            (jfrac (digitsVal ((c :: (cs ++ c0 :: r)).takeWhile Char.isDigit))
                ((c :: (cs ++ c0 :: r)).dropWhile Char.isDigit)).bind
              (fun mr => jexp mr.1 mr.2)
          else none := rfl
      rw [s1, if_neg hcdash, s2, if_neg hcne0, if_pos hcd, ← List.cons_append, ← hnc,
        takeWhile_append_not Char.isDigit (natChars X) c0 r hdigits h0,
        dropWhile_append_not Char.isDigit (natChars X) c0 r hdigits h0,
        digitsVal_natChars, hbind X]
      rfl

lemma jval_ws_digit (fuel : Nat) (d : Nat) (hd : d < 10) (t : List Char) :
    jval (fuel + 1) (' ' :: digitChar d :: t) = jnumber (digitChar d :: t) := by
  interval_cases d <;> rfl

lemma jval_number_ws (X : Nat) (f : Nat) (c0 : Char) (r : List Char)
    (h0 : c0.isDigit = false) (h1 : c0 ≠ '.') (h2 : c0 ≠ 'e') (h3 : c0 ≠ 'E') :
    jval (f + 1) (' ' :: (natChars X ++ c0 :: r)) =
      some (.jnum ((X : Nat) : ℚ), c0 :: r) := by
  cases hnc : natChars X with
  | nil => exact absurd hnc (natChars_ne_nil X)
  | cons c cs =>
    have hm : c ∈ natChars X := by
      rw [hnc]
      exact List.mem_cons_self c cs
    obtain ⟨d, hd, he⟩ := natChars_mem X c hm
    subst he
    rw [List.cons_append, jval_ws_digit f d hd, ← List.cons_append, ← hnc]
    exact jnumber_natChars X c0 r h0 h1 h2 h3

lemma jobj_perf (X : Nat) (fp : Nat) (t : List Char) (acc : List (String × JVal)) :
    jobjFields (fp + 2)
      ('"' :: ("performance".data ++ '"' :: ':' :: ' ' :: (natChars X ++ ',' :: t))) acc =
    jobjFields (fp + 1) t (insertKV acc "performance" (.jnum ((X : Nat) : ℚ))) := by
  have h1 : jobjFields (fp + 2)
      ('"' :: ("performance".data ++ '"' :: ':' :: ' ' :: (natChars X ++ ',' :: t))) acc =
      (match jval (fp + 1) (' ' :: (natChars X ++ ',' :: t)) with
       | none => none
       | some (v, r3) =>
         match jskipWs r3 with
         | ',' :: r4 => jobjFields (fp + 1) r4 (insertKV acc (String.mk "performance".data) v)
         | '\x7d' :: r4 => some (.jobj (insertKV acc (String.mk "performance".data) v), r4)
         | _ => none) := rfl
  rw [h1, jval_number_ws X fp ',' t (by decide) (by decide) (by decide) (by decide)]
  rfl

lemma jobj_extra (Y : Nat) (fe : Nat) (acc : List (String × JVal)) :
    jobjFields (fe + 2)
      (' ' :: '"' :: ("extra".data ++ '"' :: ':' :: ' ' :: (natChars Y ++ ['\x7d']))) acc =
    some (.jobj (insertKV acc "extra" (.jnum ((Y : Nat) : ℚ))), []) := by
  have h1 : jobjFields (fe + 2)
      (' ' :: '"' :: ("extra".data ++ '"' :: ':' :: ' ' :: (natChars Y ++ ['\x7d']))) acc =
      (match jval (fe + 1) (' ' :: (natChars Y ++ '\x7d' :: ([] : List Char))) with
       | none => none
       | some (v, r3) =>
         match jskipWs r3 with
         | ',' :: r4 => jobjFields (fe + 1) r4 (insertKV acc (String.mk "extra".data) v)
         | '\x7d' :: r4 => some (.jobj (insertKV acc (String.mk "extra".data) v), r4)
         | _ => none) := rfl
  rw [h1, jval_number_ws Y fe '\x7d' [] (by decide) (by decide) (by decide) (by decide)]
  rfl

lemma jval_jline (X Y : Nat) (f : Nat) :
    jval (f + 4) (jlineChars X Y) =
      some (.jobj [("performance", .jnum ((X : Nat) : ℚ)),
                   ("extra", .jnum ((Y : Nat) : ℚ))], []) := by
  rw [jlineChars_cons]
  have h0 : jval (f + 4) ('\x7b' :: '"' :: ("performance".data ++ '"' :: ':' :: ' ' ::
      (natChars X ++ ',' :: ' ' :: '"' ::
        ("extra".data ++ '"' :: ':' :: ' ' :: (natChars Y ++ ['\x7d']))))) =
      jobjFields (f + 3)
        ('"' :: ("performance".data ++ '"' :: ':' :: ' ' ::
          (natChars X ++ ',' :: ' ' :: '"' ::
            ("extra".data ++ '"' :: ':' :: ' ' :: (natChars Y ++ ['\x7d']))))) [] := rfl
  rw [h0, show f + 3 = (f + 1) + 2 by omega]
  rw [jobj_perf X (f + 1)
    (' ' :: '"' :: ("extra".data ++ '"' :: ':' :: ' ' :: (natChars Y ++ ['\x7d']))) []]
  rw [show (f + 1) + 1 = f + 2 by omega]
  rw [jobj_extra Y f (insertKV [] "performance" (.jnum ((X : Nat) : ℚ)))]
  rfl

lemma jloads_jline (X Y : Nat) :
    jloads (jline X Y) =
      some (.jobj [("performance", .jnum ((X : Nat) : ℚ)),
                   ("extra", .jnum ((Y : Nat) : ℚ))]) := by
  unfold jloads
  have h4 : 4 ≤ (jline X Y).length := by
    rw [show (jline X Y).length = (jline X Y).data.length from rfl, jline_data,
      jlineChars_cons]
    simp only [List.length_cons, List.length_append]
    omega
  obtain ⟨f, hf⟩ : ∃ f, (jline X Y).length + 1 = f + 4 :=
    ⟨(jline X Y).length - 3, by omega⟩
  rw [hf, show (jline X Y).data = jlineChars X Y from jline_data X Y, jval_jline X Y f]
  rfl

lemma json_line_jline (X Y : Nat) :
    json_loads_line (jline X Y) =
      some [("performance", JVal.jnum ((X : Nat) : ℚ)),
            ("extra", JVal.jnum ((Y : Nat) : ℚ))] := by
  unfold json_loads_line
  rw [jloads_jline X Y]

lemma jlineChars_shape (X Y : Nat) :
    jlineChars X Y = '\x7b' ::
      (('"' :: ("performance".data ++ '"' :: ':' :: ' ' ::
        (natChars X ++ ',' :: ' ' :: '"' ::
          ("extra".data ++ '"' :: ':' :: ' ' :: natChars Y)))) ++ ['\x7d']) := by
  rw [jlineChars_cons]
  simp [List.append_assoc]

lemma jline_strip (X Y : Nat) : pystrip (jline X Y) = jline X Y := by
  unfold pystrip
  rw [jline_data, jlineChars_shape,
    stripCharSet_ends pyWs '\x7b' '\x7d' _ (by decide) (by decide),
    ← jlineChars_shape, ← jline_data, mk_data]

lemma jline_startswith (X Y : Nat) : pystartswith (jline X Y) "\x7b" = true := by
  unfold pystartswith
  rw [jline_data, jlineChars_shape]
  show ['\x7b'].isPrefixOf ('\x7b' :: _) = true
  simp [List.isPrefixOf]

/-- `"\n".join(lines)`, the shape of an evaluator output with one line
per list entry. -/
def joinNl (ls : List String) : String :=
  String.mk (joinWith ['\n'] (ls.map String.data))

/-- A line the scan loop of `_parse_evaluator_output` passes over without
breaking and without touching `json_data`: blank after stripping, or
`{`-led but not `json.loads`-parseable, or not `{`-led and not a Python
float literal. -/
def inert_line (l : String) : Prop :=
  pystrip l = "" ∨
  (pystartswith (pystrip l) "\x7b" = true ∧
    (json_loads_line (pystrip l)).isNone = true) ∨
  (pystartswith (pystrip l) "\x7b" = false ∧
    (pyFloatStr (pystrip l)).isNone = true)

instance inert_line_decidable (l : String) : Decidable (inert_line l) := by
  unfold inert_line
  infer_instance

lemma scan_lines_inert (l : String) (hl : inert_line l) (score0 : Option ℚ)
    (jd : List (String × JVal)) (rest : List String) :
    scan_lines score0 jd (l :: rest) = scan_lines score0 jd rest := by
  have e : scan_lines score0 jd (l :: rest) =
      (if pystartswith (pystrip l) "\x7b" then
        match json_loads_line (pystrip l) with
        | some fields =>
          match json_line_step fields with
          | .breakWith (some q) => (some q, fields)
          | .breakWith none => (score0, fields)
          | .valueErrorContinue => scan_lines score0 fields rest
        | none => scan_lines score0 jd rest
      else if score0.isNone && !(pystrip l == "") then
        match pyFloatStr (pystrip l) with
        | some q => (some q, jd)
        | none => scan_lines score0 jd rest
      else scan_lines score0 jd rest) := rfl
  rw [e]
  rcases hl with hs | ⟨h1, h2⟩ | ⟨h1, h2⟩
  · rw [hs]
    rw [show pystartswith "" "\x7b" = false from rfl]
    rw [if_neg (by simp)]
    rw [show (!(("" : String) == "")) = false from rfl, Bool.and_false]
    rw [if_neg (by simp)]
  · rw [h1, if_pos rfl, Option.isNone_iff_eq_none.mp h2]
  · rw [h1, if_neg (by simp)]
    by_cases hc : (score0.isNone && !(pystrip l == "")) = true
    · rw [if_pos hc, Option.isNone_iff_eq_none.mp h2]
    · rw [if_neg hc]

lemma scan_inert_prefix (pre : List String) :
    (∀ l ∈ pre, inert_line l) → ∀ (score0 : Option ℚ)
      (jd : List (String × JVal)) (rest : List String),
      scan_lines score0 jd (pre ++ rest) = scan_lines score0 jd rest := by
  induction pre with
  | nil =>
    intro _ score0 jd rest
    rfl
  | cons l ls ih =>
    intro hpre score0 jd rest
    rw [List.cons_append,
      scan_lines_inert l (hpre l (List.mem_cons_self l ls)) score0 jd (ls ++ rest),
      ih (fun x hx => hpre x (List.mem_cons_of_mem l hx)) score0 jd rest]

lemma splitOnCh_joinWith (sep : Char) :
    ∀ ws : List (List Char), ws ≠ [] → (∀ w ∈ ws, ∀ c ∈ w, c ≠ sep) →
      splitOnCh sep (joinWith [sep] ws) = ws := by
  intro ws
  induction ws with
  | nil => intro h; exact absurd rfl h
  | cons w ws ih =>
    intro _ hsep
    cases ws with
    | nil =>
      show splitOnCh sep w = [w]
      exact splitOnCh_no_sep sep w (hsep w (List.mem_cons_self w []))
    | cons w2 ws2 =>
      show splitOnCh sep (w ++ [sep] ++ joinWith [sep] (w2 :: ws2)) = w :: w2 :: ws2
      rw [List.append_assoc, List.singleton_append,
        splitOnCh_append sep w _ (hsep w (List.mem_cons_self w _)),
        ih (by simp) (fun x hx => hsep x (List.mem_cons_of_mem w hx))]

lemma jline_no_newline (X Y : Nat) : ('\n') ∉ (jline X Y).data := by
  rw [jline_data]
  intro h
  simp only [jlineChars, List.mem_append] at h
  rcases h with (((h | h) | h) | h) | h <;>
    first
      | exact absurd h (by decide)
      | exact (natChars_prop (fun x => x ≠ '\n') (by decide) _ _ h) rfl

lemma scan_jline (X Y : Nat) (score0 : Option ℚ) (jd : List (String × JVal)) :
    scan_lines score0 jd [jline X Y] =
      (some ((X : Nat) : ℚ),
       [("performance", JVal.jnum ((X : Nat) : ℚ)),
        ("extra", JVal.jnum ((Y : Nat) : ℚ))]) := by
  have e : scan_lines score0 jd [jline X Y] =
      (if pystartswith (pystrip (jline X Y)) "\x7b" then
        match json_loads_line (pystrip (jline X Y)) with
        | some fields =>
          match json_line_step fields with
          | .breakWith (some q) => (some q, fields)
          | .breakWith none => (score0, fields)
          | .valueErrorContinue => scan_lines score0 fields []
        | none => scan_lines score0 jd []
      else if score0.isNone && !(pystrip (jline X Y) == "") then
        match pyFloatStr (pystrip (jline X Y)) with
        | some q => (some q, jd)
        | none => scan_lines score0 jd []
      else scan_lines score0 jd []) := rfl
  rw [e, jline_strip, jline_startswith, if_pos rfl, json_line_jline]
  rfl

/-- C4 counterexample: the evaluator output `"7\n{"performance": 3,
"extra": 1}"` ends in the line `{"performance": 3, "extra": 1}` (it is
`joinNl ["7", jline 3 1]`), yet the parser stores performance 7 — the
earlier bare numeric line, scanned first, wins over the trailing JSON
object — and keeps no JSON fields at all, so no `extra` column is
written: the claimed "last JSON object first" priority and its
`{"performance": X, "extra": Y}` instance both fail. -/
theorem parse_eval_counterexample :
    "7\n\x7b\"performance\": 3, \"extra\": 1\x7d" = joinNl ["7", jline 3 1] ∧
    (parse_evaluator_output "7\n\x7b\"performance\": 3, \"extra\": 1\x7d").1 =
      some ((7 : Nat) : ℚ) ∧
    ((7 : Nat) : ℚ) ≠ ((3 : Nat) : ℚ) ∧
    (parse_evaluator_output "7\n\x7b\"performance\": 3, \"extra\": 1\x7d").2 = [] := by
  refine ⟨by decide, rfl, by norm_num, rfl⟩

/-- C4 (amended): `_parse_evaluator_output` scans lines in order and the
first scoring line wins; when every earlier line is inert (blank, or
`{`-led but unparseable, or neither JSON-led nor a float literal), an
output ending in the line `{"performance": X, "extra": Y}` does parse to
performance `X` with the fields of that line kept, and the extra-column
selection of `process_candidate` then writes exactly `extra = Y`. -/
theorem parse_eval_amended (pre : List String) (X Y : Nat)
    (hinert : ∀ l ∈ pre, inert_line l)
    (hnl : ∀ l ∈ pre, ('\n') ∉ l.data)
    (hstrip : pystrip (joinNl (pre ++ [jline X Y])) = joinNl (pre ++ [jline X Y])) :
    parse_evaluator_output (joinNl (pre ++ [jline X Y])) =
      (some ((X : Nat) : ℚ),
       [("performance", JVal.jnum ((X : Nat) : ℚ)),
        ("extra", JVal.jnum ((Y : Nat) : ℚ))]) ∧
    extra_updates
        [("performance", JVal.jnum ((X : Nat) : ℚ)),
         ("extra", JVal.jnum ((Y : Nat) : ℚ))] =
      [("extra", JVal.jnum ((Y : Nat) : ℚ))] := by
  constructor
  · have e : parse_evaluator_output (joinNl (pre ++ [jline X Y])) =
        (match (scan_lines none []
            ((splitOnCh '\n'
              (pystrip (joinNl (pre ++ [jline X Y]))).data).map String.mk)).1 with
         | some q =>
           (some q, (scan_lines none []
             ((splitOnCh '\n'
               (pystrip (joinNl (pre ++ [jline X Y]))).data).map String.mk)).2)
         | none =>
           (score_regex (joinNl (pre ++ [jline X Y])), (scan_lines none []
             ((splitOnCh '\n'
               (pystrip (joinNl (pre ++ [jline X Y]))).data).map String.mk)).2)) := rfl
    have hdata : (joinNl (pre ++ [jline X Y])).data =
        joinWith ['\n'] ((pre ++ [jline X Y]).map String.data) := rfl
    have hsplit : splitOnCh '\n' (joinNl (pre ++ [jline X Y])).data =
        (pre ++ [jline X Y]).map String.data := by
      rw [hdata]
      refine splitOnCh_joinWith '\n' _ (by simp) ?_
      intro w hw
      obtain ⟨l, hl, hwl⟩ := List.mem_map.mp hw
      intro c hc hceq
      rcases List.mem_append.mp hl with hlp | hlj
      · exact (hnl l hlp) (hceq ▸ hwl ▸ hc)
      · rw [List.mem_singleton.mp hlj] at hwl
        exact jline_no_newline X Y (hceq ▸ hwl ▸ hc)
    rw [e, hstrip, hsplit, map_mk_data,
      scan_inert_prefix pre hinert none [] [jline X Y], scan_jline X Y none []]
  · rfl

/-- C4 amended-claim witness at a concrete output: one inert line
`"hello world"`, then `{"performance": 3, "extra": 1}`. -/
theorem parse_eval_amended_witness :
    parse_evaluator_output (joinNl (["hello world"] ++ [jline 3 1])) =
      (some ((3 : Nat) : ℚ),
       [("performance", JVal.jnum ((3 : Nat) : ℚ)),
        ("extra", JVal.jnum ((1 : Nat) : ℚ))]) ∧
    extra_updates
        [("performance", JVal.jnum ((3 : Nat) : ℚ)),
         ("extra", JVal.jnum ((1 : Nat) : ℚ))] =
      [("extra", JVal.jnum ((1 : Nat) : ℚ))] :=
  parse_eval_amended ["hello world"] 3 1 (by decide) (by decide) (by decide)

end ClaudeEvolve
